import Mathlib

/-!
Shallow embedding of the core of the ttyvid repository (ANSI parser,
terminal emulator, GIF encoder helpers, gap-removal preprocessing),
translated from the Rust sources under src/.

Modelling conventions:
* Rust `i32` fields are modelled as `Int` (no claim exercises 32-bit
  overflow); `usize` quantities as `Nat`.
* `x as usize` on an `i32` is modelled by `usizeOfI32` (two's-complement
  cast: negative values become huge numbers, so bounds guards fail
  exactly as in Rust); `x as u8` by `u8OfI32` (low byte).
* The row-major `Vec<Cell>` of `Grid` (always indexed as
  `cells[y * width + x]` with `x < width`) is modelled by its lookup
  function `cells : Nat → Nat → Cell`; `Grid::clear`, which overwrites
  every vector entry, becomes the constant function.
* A Rust `panic!` is modelled as `Option.none`; functions that can reach
  a panic return `Option`.
* `str` buffers are modelled as `List Char` (the Rust code slices only
  at regex-match boundaries, which are char boundaries, so the char
  list view is exact).
-/

namespace TtyVid

/-- Two's-complement cast of an `i32` value to `usize` (64-bit). -/
def usizeOfI32 (x : Int) : Nat :=
  if 0 ≤ x then x.toNat else (2 ^ 64 + x).toNat

/-- Truncating cast of an `i32` value to `u8` (low byte). -/
def u8OfI32 (x : Int) : Nat :=
  (x % 256).toNat

/-- The list of `i32` values of the Rust exclusive range `a..b`. -/
def intRange (a b : Int) : List Int :=
  (List.range (b - a).toNat).map (fun i => a + (i : Int))

/-- The list of `i32` values of the Rust inclusive range `a..=b`. -/
def intRangeIncl (a b : Int) : List Int :=
  intRange a (b + 1)

/-- The list of `usize` values of the Rust inclusive range `a..=b`. -/
def natRangeIncl (a b : Nat) : List Nat :=
  (List.range (b + 1 - a)).map (fun i => a + i)

/-! ## `src/terminal/cell.rs` -/

/-- Cell attribute flags (`CellFlags`, a `u8` bitfield; `0` is `empty()`). -/
abbrev CellFlags := Nat

/-- One screen cell (`Cell` in cell.rs). -/
structure Cell where
  character : Char
  fg_color : Nat
  bg_color : Nat
  flags : CellFlags
deriving DecidableEq, Repr

/-- `Cell::new`. -/
def Cell.new (character : Char) (fg_color bg_color : Nat) (flags : CellFlags) : Cell :=
  ⟨character, fg_color, bg_color, flags⟩

/-- `Cell::empty`: a space with the given colors and empty flags. -/
def Cell.empty (fg_color bg_color : Nat) : Cell :=
  ⟨' ', fg_color, bg_color, 0⟩

/-! ## `src/terminal/grid.rs` -/

/-- The cell grid (`Grid` in grid.rs); the row-major cell vector is
modelled by its lookup function. -/
structure Grid where
  cells : Nat → Nat → Cell
  width : Nat
  height : Nat

/-- `Grid::new`: every position holds `Cell::empty(fg, bg)`. -/
def Grid.new (width height : Nat) (fg_color bg_color : Nat) : Grid :=
  ⟨fun _ _ => Cell.empty fg_color bg_color, width, height⟩

/-- `Grid::write_cell`: bounds-guarded single-cell store. -/
def Grid.write_cell (g : Grid) (x y : Nat) (c : Cell) : Grid :=
  if x < g.width ∧ y < g.height then
    { g with cells := fun a b => if a = x ∧ b = y then c else g.cells a b }
  else g

/-- `Grid::get_cell`: bounds-guarded read. -/
def Grid.get_cell (g : Grid) (x y : Nat) : Option Cell :=
  if x < g.width ∧ y < g.height then some (g.cells x y) else none

/-- `Grid::clear`: every vector entry is overwritten with
`Cell::empty(fg, bg)`. -/
def Grid.clear (g : Grid) (fg_color bg_color : Nat) : Grid :=
  { g with cells := fun _ _ => Cell.empty fg_color bg_color }

/-- The inner `for x in 0..width` loop of the region-clearing passes:
set row `y` to empty cells. -/
def Grid.clearRowLoop (w : Nat) (fg bg : Nat) (y : Nat)
    (cells : Nat → Nat → Cell) : Nat → Nat → Cell :=
  (List.range w).foldl
    (fun f x => fun a b => if a = x ∧ b = y then Cell.empty fg bg else f a b)
    cells

/-- The inner `for x in 0..width` loop of `scroll_region_up`: copy row
`y + lines` into row `y` (guard as in the source). -/
def Grid.shiftRowUpLoop (w h bottom lines : Nat) (y : Nat)
    (cells : Nat → Nat → Cell) : Nat → Nat → Cell :=
  (List.range w).foldl
    (fun f x =>
      if y + lines ≤ bottom ∧ y + lines < h then
        fun a b => if a = x ∧ b = y then f x (y + lines) else f a b
      else f)
    cells

/-- The inner `for x in 0..width` loop of `scroll_region_down`: copy row
`y - lines` into row `y` (saturating subtraction and guard as in the
source). -/
def Grid.shiftRowDownLoop (w top lines : Nat) (y : Nat)
    (cells : Nat → Nat → Cell) : Nat → Nat → Cell :=
  (List.range w).foldl
    (fun f x =>
      if top ≤ y - lines then
        fun a b => if a = x ∧ b = y then f x (y - lines) else f a b
      else f)
    cells

/-- `Grid::scroll_region_up`. -/
def Grid.scroll_region_up (g : Grid) (top bottom lines : Nat)
    (fg bg : Nat) : Grid :=
  let region_height := bottom - top + 1
  if lines = 0 ∨ region_height ≤ lines then
    let cleared :=
      (natRangeIncl top (min bottom (g.height - 1))).foldl
        (fun f y => Grid.clearRowLoop g.width fg bg y f) g.cells
    { g with cells := cleared }
  else
    let shifted :=
      (natRangeIncl top (min (bottom - lines) (g.height - 1))).foldl
        (fun f y => Grid.shiftRowUpLoop g.width g.height bottom lines y f)
        g.cells
    let clear_start := bottom + 1 - lines
    let cleared :=
      (natRangeIncl clear_start (min bottom (g.height - 1))).foldl
        (fun f y => Grid.clearRowLoop g.width fg bg y f) shifted
    { g with cells := cleared }

/-- `Grid::scroll_region_down`. -/
def Grid.scroll_region_down (g : Grid) (top bottom lines : Nat)
    (fg bg : Nat) : Grid :=
  let region_height := bottom - top + 1
  if lines = 0 ∨ region_height ≤ lines then
    let cleared :=
      (natRangeIncl top (min bottom (g.height - 1))).foldl
        (fun f y => Grid.clearRowLoop g.width fg bg y f) g.cells
    { g with cells := cleared }
  else
    let shifted :=
      ((natRangeIncl (top + lines) (min bottom (g.height - 1))).reverse).foldl
        (fun f y => Grid.shiftRowDownLoop g.width top lines y f) g.cells
    let cleared :=
      (List.range (min (top + lines) (min (bottom + 1) g.height) - top)).foldl
        (fun f i => Grid.clearRowLoop g.width fg bg (top + i) f) shifted
    { g with cells := cleared }

/-! ## `src/terminal/state.rs` -/

/-- The emulator state (`TerminalState` in state.rs); all `i32` fields
are modelled as `Int`. -/
structure TerminalState where
  cursor_x : Int
  cursor_y : Int
  width : Int
  height : Int
  mode : String
  reverse_video : Bool
  bold : Bool
  text_mode : Bool
  autowrap : Bool
  foreground : Int
  background : Int
  default_foreground : Int
  default_background : Int
  pending_wrap : Bool
  cursor_speed : Int
  display_cursor : Bool
  scroll : Int
  scroll_top : Int
  scroll_bottom : Int
  saved_cursor_x : Int
  saved_cursor_y : Int
  flags : CellFlags

namespace TerminalState

/-- `TerminalState::new` (the `u8` default colors arrive as their byte
values, hence the `% 256`). -/
def new (width height : Nat) (default_fg default_bg : Nat) : TerminalState :=
  { cursor_x := 0
    cursor_y := 0
    width := (width : Int)
    height := (height : Int)
    mode := "linux"
    reverse_video := false
    bold := false
    text_mode := false
    autowrap := true
    foreground := ((default_fg % 256 : Nat) : Int)
    background := ((default_bg % 256 : Nat) : Int)
    default_foreground := ((default_fg % 256 : Nat) : Int)
    default_background := ((default_bg % 256 : Nat) : Int)
    pending_wrap := false
    cursor_speed := 0
    display_cursor := false
    scroll := 0
    scroll_top := 0
    scroll_bottom := (height : Int) - 1
    saved_cursor_x := 0
    saved_cursor_y := 0
    flags := 0 }

/-- `TerminalState::text_mode_on`. -/
def text_mode_on (s : TerminalState) : TerminalState := { s with text_mode := true }

/-- `TerminalState::text_mode_off`. -/
def text_mode_off (s : TerminalState) : TerminalState := { s with text_mode := false }

/-- `TerminalState::autowrap_on`. -/
def autowrap_on (s : TerminalState) : TerminalState := { s with autowrap := true }

/-- `TerminalState::autowrap_off`. -/
def autowrap_off (s : TerminalState) : TerminalState := { s with autowrap := false }

/-- `TerminalState::set_scroll_region` (no validation of the bounds). -/
def set_scroll_region (s : TerminalState) (top bottom : Int) : TerminalState :=
  { s with scroll := 0, scroll_top := top, scroll_bottom := bottom }

/-- `TerminalState::show_cursor`. -/
def show_cursor (s : TerminalState) : TerminalState := { s with display_cursor := true }

/-- `TerminalState::hide_cursor`. -/
def hide_cursor (s : TerminalState) : TerminalState := { s with display_cursor := false }

/-- First statement of `check_bounds`: drop `pending_wrap` unless the
cursor sits at the bottom-right corner with autowrap on. -/
def cbWrap (s : TerminalState) : TerminalState :=
  if s.pending_wrap ∧
      (s.cursor_x ≠ s.width - 1 ∨ s.cursor_y ≠ s.height - 1 ∨ ¬s.autowrap) then
    { s with pending_wrap := false }
  else s

/-- Second statement of `check_bounds`: clamp `cursor_x` below at 0. -/
def cbXLow (s : TerminalState) : TerminalState :=
  if s.cursor_x < 0 then { s with cursor_x := 0 } else s

/-- Third statement of `check_bounds`: clamp `cursor_x` above at
`width - 1`. -/
def cbXHigh (s : TerminalState) : TerminalState :=
  if s.cursor_x ≥ s.width then { s with cursor_x := s.width - 1 } else s

/-- Fourth statement of `check_bounds`: clamp `cursor_y` at
`scroll_top`, accumulating negative scroll in text mode. -/
def cbYTop (s : TerminalState) : TerminalState :=
  if s.cursor_y < s.scroll_top then
    if s.text_mode then
      { s with scroll := s.scroll - (s.scroll_top - s.cursor_y),
               cursor_y := s.scroll_top }
    else { s with cursor_y := s.scroll_top }
  else s

/-- Fifth statement of `check_bounds`: clamp `cursor_y` at
`scroll_bottom`, accumulating positive scroll in text mode. -/
def cbYBot (s : TerminalState) : TerminalState :=
  if s.cursor_y > s.scroll_bottom then
    if s.text_mode then
      { s with scroll := s.scroll + (s.cursor_y - s.scroll_bottom),
               cursor_y := s.scroll_bottom }
    else { s with cursor_y := s.scroll_bottom }
  else s

/-- `TerminalState::check_bounds` (its five statements in order). -/
def check_bounds (s : TerminalState) : TerminalState :=
  cbYBot (cbYTop (cbXHigh (cbXLow (cbWrap s))))

/-- `TerminalState::cursor_up`. -/
def cursor_up (s : TerminalState) (distance : Int) : TerminalState :=
  check_bounds { s with cursor_y := s.cursor_y - distance }

/-- `TerminalState::cursor_down`. -/
def cursor_down (s : TerminalState) (distance : Int) : TerminalState :=
  check_bounds { s with cursor_y := s.cursor_y + distance }

/-- `TerminalState::cursor_left`. -/
def cursor_left (s : TerminalState) (distance : Int) : TerminalState :=
  check_bounds { s with cursor_x := s.cursor_x - distance }

/-- The `while cursor_x >= width` wrap loop inside `cursor_right`.  Each
iteration lowers `cursor_x` by `width ≥ 1`, so `cursor_x + 1` iterations
always suffice; the fuel only cuts off the (diverging) `width ≤ 0` case,
which no claim exercises. -/
def wrapLoop : Nat → TerminalState → TerminalState
  | 0, s => s
  | fuel + 1, s =>
    if s.cursor_x ≥ s.width then
      wrapLoop fuel (cursor_down { s with cursor_x := s.cursor_x - s.width } 1)
    else s

/-- `TerminalState::cursor_right` (pending-wrap special case, then the
wrap loop when autowrap is on). -/
def cursor_right (s : TerminalState) (distance : Int) : TerminalState :=
  if ¬s.pending_wrap ∧ s.autowrap ∧ s.cursor_x = s.width - 1 then
    { s with pending_wrap := true }
  else
    let s := { s with cursor_x := s.cursor_x + distance }
    let s := if s.autowrap then wrapLoop (s.cursor_x.toNat + 1) s else s
    check_bounds s

/-- `TerminalState::cursor_absolute_x`. -/
def cursor_absolute_x (s : TerminalState) (position : Int) : TerminalState :=
  check_bounds { s with cursor_x := position }

/-- `TerminalState::cursor_absolute_y`. -/
def cursor_absolute_y (s : TerminalState) (position : Int) : TerminalState :=
  check_bounds { s with cursor_y := position }

/-- `TerminalState::cursor_absolute`. -/
def cursor_absolute (s : TerminalState) (position_x position_y : Int) : TerminalState :=
  check_bounds { s with cursor_x := position_x, cursor_y := position_y }

/-- `TerminalState::cursor_save_position`. -/
def cursor_save_position (s : TerminalState) : TerminalState :=
  { s with saved_cursor_x := s.cursor_x, saved_cursor_y := s.cursor_y }

/-- `TerminalState::cursor_restore_position`. -/
def cursor_restore_position (s : TerminalState) : TerminalState :=
  { s with cursor_x := s.saved_cursor_x, cursor_y := s.saved_cursor_y }

/-- `TerminalState::cursor_get_position`. -/
def cursor_get_position (s : TerminalState) : Int × Int :=
  (s.cursor_x, s.cursor_y)

/-- `TerminalState::set_background`; the `panic!("Color over maximum
value")` branch is `none`. -/
def set_background (s : TerminalState) (color : Int) : Option TerminalState :=
  if color > 255 then none else some { s with background := color }

/-- `TerminalState::set_foreground`; the `panic!("Color over maximum
value")` branch is `none`. -/
def set_foreground (s : TerminalState) (color : Int) : Option TerminalState :=
  if color > 255 then none else some { s with foreground := color }

end TerminalState

/-! ## `src/terminal/parser.rs`

The Rust code tokenizes with one `regex` alternation (leftmost-first
semantics, compiled from the eight patterns listed in the source).  The
embedding scans positions left to right and, at each position, tries the
eight alternatives in their order in the pattern; `.` excludes `\n` as
in the default regex mode, and the lazy `.*?` bodies stop at the first
terminator. -/

namespace Ansi

/-- `EscapeType` in parser.rs. -/
inductive EscapeType where
  | Single | CharSet | G0 | G1 | Csi | Osc | BracketPaste | Title
deriving DecidableEq, Repr

/-- `Command` in parser.rs. -/
structure Command where
  esc_type : EscapeType
  command : String
  params : List Int
deriving DecidableEq, Repr

/-- `Event` in parser.rs. -/
inductive Event where
  | text (chars : List Char)
  | command (cmd : Command)
deriving DecidableEq, Repr

/-- The ESC character `0x1B`. -/
def escChar : Char := '\x1b'

/-- Character class of `[cDEHMZ6789>=i]` (ANSI_SINGLE finals). -/
def isSingleFinal (c : Char) : Bool :=
  c = 'c' ∨ c = 'D' ∨ c = 'E' ∨ c = 'H' ∨ c = 'M' ∨ c = 'Z' ∨ c = '6' ∨
    c = '7' ∨ c = '8' ∨ c = '9' ∨ c = '>' ∨ c = '=' ∨ c = 'i'

/-- Character class of `[@G*]` (ANSI_CHAR_SET finals). -/
def isCharSetFinal (c : Char) : Bool := c = '@' ∨ c = 'G' ∨ c = '*'

/-- Character class of `[B0UK]` (G0/G1 finals). -/
def isGFinal (c : Char) : Bool := c = 'B' ∨ c = '0' ∨ c = 'U' ∨ c = 'K'

/-- Character class of `(?:\d|;|<|>|=|\?)` (CSI parameter bytes). -/
def isCsiParamChar (c : Char) : Bool :=
  c.isDigit ∨ c = ';' ∨ c = '<' ∨ c = '>' ∨ c = '=' ∨ c = '?'

/-- Character class of the CSI final byte: letters, backquote (0x60)
and tilde. -/
def isCsiFinal (c : Char) : Bool :=
  (97 ≤ c.toNat ∧ c.toNat ≤ 122) ∨ (65 ≤ c.toNat ∧ c.toNat ≤ 90) ∨
    c.toNat = 96 ∨ c = '~'

/-- `"1".parse::<i32>()` on a run of parameter text: succeeds only on a
nonempty all-digit run whose value fits in an `i32`. -/
def parseI32 (s : List Char) : Option Int :=
  if s ≠ [] ∧ s.all Char.isDigit then
    let v : Nat := s.foldl (fun a c => a * 10 + (c.toNat - 48)) 0
    if v ≤ 2147483647 then some (v : Int) else none
  else none

/-- `parse_csi_params` in parser.rs. -/
def parse_csi_params (param_str : List Char) (command : Char) :
    String × List Int :=
  if command = 'H' ∨ command = 'f' then
    let parts := param_str.splitOn ';'
    let params := parts.map (fun p => if p = [] then 1 else (parseI32 p).getD 1)
    let params := params ++ List.replicate (2 - params.length) 1
    (String.mk [command], params)
  else if param_str ≠ [] ∧ param_str.head? = some '?' then
    let params := ((param_str.drop 1).splitOn ';').filterMap parseI32
    (String.mk ['?', command], params)
  else
    let params :=
      ((param_str.splitOn ';').filter (fun p => p ≠ [])).filterMap parseI32
    let params :=
      if params = [] then
        if command = 'J' ∨ command = 'K' ∨ command = 'm' then [(0 : Int)]
        else if command = 'A' ∨ command = 'B' ∨ command = 'C' ∨ command = 'D' then
          [(1 : Int)]
        else []
      else params
    (String.mk [command], params)

/-- Lazy body + terminator of the OSC pattern
`(?:\x1b\]|\x9d).*?(?:\x1b\\|[\x07\x9c])`: at each position the
terminator is tried first, then `.` (which rejects `\n`).  Returns the
suffix after the terminator. -/
def oscTerm : List Char → Option (List Char)
  | [] => none
  | c :: r =>
    if c = escChar then
      match r with
      | c2 :: r2 => if c2 = '\\' then some r2 else oscTerm r
      | [] => none
    else if c = '\x07' ∨ c = '\x9c' then some r
    else if c = '\n' then none
    else oscTerm r

/-- Lazy body + terminator of the Title pattern `[\x1b][k](.*?)[\x1b]\\`. -/
def titleTerm : List Char → Option (List Char)
  | [] => none
  | c :: r =>
    if c = escChar then
      match r with
      | c2 :: r2 => if c2 = '\\' then some r2 else titleTerm r
      | [] => none
    else if c = '\n' then none
    else titleTerm r

/-- Try the eight regex alternatives, in their order in the pattern, at
the head of `l`; on a match, return the parsed event (as built by
`parse_escape_sequence`) and the suffix after the match. -/
def tryAt (l : List Char) : Option (Event × List Char) :=
  match l with
  | c0 :: c1 :: rest =>
    if c0 = escChar ∧ isSingleFinal c1 then
      some (.command ⟨.Single, String.mk [c1], []⟩, rest)
    else if c0 = escChar ∧ c1 = '%' then
      match rest with
      | c2 :: rest2 =>
        if isCharSetFinal c2 then
          some (.command ⟨.CharSet, String.mk [c2], []⟩, rest2)
        else none
      | [] => none
    else if c0 = escChar ∧ c1 = '(' then
      match rest with
      | c2 :: rest2 =>
        if isGFinal c2 then some (.command ⟨.G0, String.mk [c2], []⟩, rest2)
        else none
      | [] => none
    else if c0 = escChar ∧ c1 = ')' then
      match rest with
      | c2 :: rest2 =>
        if isGFinal c2 then some (.command ⟨.G1, String.mk [c2], []⟩, rest2)
        else none
      | [] => none
    else if c0 = escChar ∧ c1 = '[' then
      -- CSI: `[\x1b]\[((?:\d|;|<|>|=|\?)*)([a-zA-Z`~])\x02?`
      let ps := rest.takeWhile isCsiParamChar
      match rest.dropWhile isCsiParamChar with
      | f :: rest2 =>
        if isCsiFinal f then
          let rest3 := match rest2 with
            | '\x02' :: r => r
            | _ => rest2
          let (cmd, params) := parse_csi_params ps f
          some (.command ⟨.Csi, cmd, params⟩, rest3)
        else none
      | [] => none
    else if c0 = escChar ∧ c1 = ']' then
      (oscTerm rest).map (fun rest2 => (.command ⟨.Osc, "", []⟩, rest2))
    else if c0 = '\x9d' then
      (oscTerm (c1 :: rest)).map (fun rest2 => (.command ⟨.Osc, "", []⟩, rest2))
    else if c0 = escChar ∧ c1 = 'k' then
      (titleTerm rest).map (fun rest2 => (.command ⟨.Title, "0", []⟩, rest2))
    else none
  | _ => none

/-- Scan left to right for the leftmost match; return the text before
it, the event, and the suffix after it. -/
def findFirst : List Char → Option (List Char × Event × List Char)
  | [] => none
  | c :: r =>
    match tryAt (c :: r) with
    | some (ev, rest) => some ([], ev, rest)
    | none => (findFirst r).map (fun p => (c :: p.1, p.2.1, p.2.2))

/-- `stream_2_sequence` / `parse_ansi_stream_with_position`: the event
list and the unconsumed suffix after the last match (the whole input
when nothing matches).  Every match consumes at least two characters,
so fuel `l.length` never runs out. -/
def parseAux : Nat → List Char → List Event × List Char
  | 0, l => ([], l)
  | fuel + 1, l =>
    match findFirst l with
    | none => ([], l)
    | some (pre, ev, rest) =>
      let (evs, rem) := parseAux fuel rest
      ((if pre = [] then [ev] else [.text pre, ev]) ++ evs, rem)

/-- `parse_ansi_stream_with_position` (events, unconsumed suffix). -/
def parse (l : List Char) : List Event × List Char :=
  parseAux l.length l

end Ansi

/-! ## `src/renderer/colors.rs` (the parts the emulator uses) -/

/-- The 16 system colors of `Palette::default()` (flat RGB bytes). -/
def systemColors : List Nat :=
  [0, 0, 0, 128, 0, 0, 0, 128, 0, 128, 128, 0, 0, 0, 128, 128, 0, 128,
   0, 128, 128, 192, 192, 192, 128, 128, 128, 255, 0, 0, 0, 255, 0,
   255, 255, 0, 0, 0, 255, 255, 0, 255, 0, 255, 255, 255, 255, 255]

/-- `Palette::default()`: 16 system colors, the 6×6×6 cube, 24 grays
(flat `Vec<u8>` of RGB bytes, modelled as a `List Nat`). -/
def paletteDefault : List Nat :=
  systemColors ++
    ((List.range 6).flatMap fun r => (List.range 6).flatMap fun g =>
      (List.range 6).flatMap fun b =>
        [if r = 0 then 0 else 55 + r * 40,
         if g = 0 then 0 else 55 + g * 40,
         if b = 0 then 0 else 55 + b * 40]) ++
    ((List.range 24).flatMap fun i => [8 + i * 10, 8 + i * 10, 8 + i * 10])

/-- `Palette::match_color_index`: argmin of squared RGB distance over the
color table (`(0..len).step_by(3)`); the `panic!("Color value too high")`
branch is `none`. -/
def mciStep (colors : List Nat) (r g b : Int) (acc : Int × Nat) (i : Nat) :
    Int × Nat :=
  let mr : Int := colors.getD i 0
  let mg : Int := colors.getD (i + 1) 0
  let mb : Int := colors.getD (i + 2) 0
  let color_distance :=
    (r - mr) * (r - mr) + (g - mg) * (g - mg) + (b - mb) * (b - mb)
  if acc.1 = -1 ∨ color_distance < acc.1 then (color_distance, i / 3)
  else acc

def match_color_index (colors : List Nat) (r g b : Int) : Option Nat :=
  let steps := (List.range ((colors.length + 2) / 3)).map (fun k => 3 * k)
  let acc := steps.foldl (mciStep colors r g b) ((-1 : Int), (0 : Nat))
  if acc.2 > 255 then none else some acc.2

/-! ## `src/terminal/mod.rs` -/

/-- `TerminalEmulator` in mod.rs. -/
structure TerminalEmulator where
  grid : Grid
  state : TerminalState
  alt_grid : Grid
  alt_state : TerminalState
  display_alt_screen : Option Bool
  extra_text : List Char
  palette : List Nat

namespace TerminalEmulator

/-- `TerminalEmulator::new` (the `u8` default colors arrive as their
byte values, hence the `% 256`). -/
def new (width height : Nat) (auto_wrap : Bool) (default_fg default_bg : Nat) :
    TerminalEmulator :=
  let st := TerminalState.new width height default_fg default_bg
  let st := if ¬auto_wrap then st.autowrap_off else st
  { grid := Grid.new width height (default_fg % 256) (default_bg % 256)
    state := st
    alt_grid := Grid.new width height (default_fg % 256) (default_bg % 256)
    alt_state := st
    display_alt_screen := none
    extra_text := []
    palette := paletteDefault }

/-- `TerminalEmulator::has_escape`. -/
def has_escape (text : List Char) : Bool :=
  text.any (fun ch => ch.toNat = 0x1B)

/-- `TerminalEmulator::alternate_screen_on`. -/
def alternate_screen_on (e : TerminalEmulator) : TerminalEmulator :=
  if e.display_alt_screen = none then
    { e with display_alt_screen := some true
             grid := e.alt_grid, alt_grid := e.grid
             state := e.alt_state, alt_state := e.state }
  else e

/-- `TerminalEmulator::alternate_screen_off`. -/
def alternate_screen_off (e : TerminalEmulator) : TerminalEmulator :=
  if e.display_alt_screen = some true then
    { e with display_alt_screen := none
             grid := e.alt_grid, alt_grid := e.grid
             state := e.alt_state, alt_state := e.state }
  else e

/-- `TerminalEmulator::write`. -/
def write (char_ord : Nat) (e : TerminalEmulator) : TerminalEmulator :=
  let fg := e.state.foreground
  let bg := e.state.background
  let fgbg := if e.state.reverse_video then (bg, fg) else (fg, bg)
  let character :=
    if char_ord ≤ 0xFFFF then
      if char_ord.isValidChar then Char.ofNat char_ord else ' '
    else ' '
  let cell := Cell.new character (u8OfI32 fgbg.1) (u8OfI32 fgbg.2) e.state.flags
  let g := e.grid.write_cell (usizeOfI32 e.state.cursor_x)
    (usizeOfI32 e.state.cursor_y) cell
  { e with grid := g }

/-- `TerminalEmulator::scroll_buffer`. -/
def scroll_buffer (e : TerminalEmulator) : TerminalEmulator :=
  let amount := e.state.scroll.natAbs
  let fg := u8OfI32 e.state.foreground
  let bg := u8OfI32 e.state.background
  let g :=
    if e.state.scroll > 0 then
      e.grid.scroll_region_up (usizeOfI32 e.state.scroll_top)
        (usizeOfI32 e.state.scroll_bottom) amount fg bg
    else
      e.grid.scroll_region_down (usizeOfI32 e.state.scroll_top)
        (usizeOfI32 e.state.scroll_bottom) amount fg bg
  { e with grid := g, state := { e.state with scroll := 0 } }

/-- One character of the `cmd_render_text` loop.  The leading
`while scroll != 0` loop runs at most once because `scroll_buffer`
unconditionally resets `scroll` to `0`. -/
def renderChar (character : Char) (e : TerminalEmulator) : TerminalEmulator :=
  let e := if e.state.scroll ≠ 0 then scroll_buffer e else e
  let char_ord := character.toNat
  if char_ord < 32 then
    if char_ord = 8 then { e with state := e.state.cursor_left 1 }
    else if char_ord = 9 then { e with state := e.state.cursor_right 1 }
    else if char_ord = 10 then
      let e := { e with state := e.state.cursor_down 1 }
      if e.state.mode = "linux" then
        { e with state := e.state.cursor_absolute_x 0 }
      else e
    else if char_ord = 13 then { e with state := e.state.cursor_absolute_x 0 }
    else e
  else
    let e :=
      if e.state.pending_wrap then { e with state := e.state.cursor_right 1 }
      else e
    let e := write char_ord e
    { e with state := e.state.cursor_right 1 }

/-- `TerminalEmulator::cmd_render_text`. -/
def cmd_render_text (data : List Char) (e : TerminalEmulator) : TerminalEmulator :=
  let e := { e with state := e.state.text_mode_on }
  let e := data.foldl (fun e c => renderChar c e) e
  { e with state := e.state.text_mode_off }

/-- `TerminalEmulator::set_foreground` (guards the 256 limit before
delegating to the state setter). -/
def set_foreground (color : Int) (e : TerminalEmulator) : Option TerminalEmulator :=
  if color ≥ 256 then
    (e.state.set_foreground e.state.default_foreground).map
      (fun s => { e with state := s })
  else
    (e.state.set_foreground color).map (fun s => { e with state := s })

/-- `TerminalEmulator::set_background`. -/
def set_background (color : Int) (e : TerminalEmulator) : Option TerminalEmulator :=
  if color ≥ 256 then
    (e.state.set_background e.state.default_background).map
      (fun s => { e with state := s })
  else
    (e.state.set_background color).map (fun s => { e with state := s })

/-- `TerminalEmulator::cmd_set_mode` (one SGR parameter). -/
def cmd_set_mode (cmd : Int) (e : TerminalEmulator) : Option TerminalEmulator :=
  if cmd = 0 then do
    let s1 ← e.state.set_foreground e.state.default_foreground
    let s2 ← s1.set_background s1.default_background
    pure { e with state := { s2 with bold := false, reverse_video := false } }
  else if cmd = 1 then pure { e with state := { e.state with bold := true } }
  else if cmd = 7 then pure { e with state := { e.state with reverse_video := true } }
  else if cmd = 22 then pure { e with state := { e.state with bold := false } }
  else if cmd = 27 then pure { e with state := { e.state with reverse_video := false } }
  else if 30 ≤ cmd ∧ cmd ≤ 37 then
    if e.state.bold then set_foreground (cmd - 30 + 8) e
    else set_foreground (cmd - 30) e
  else if cmd = 39 then
    (e.state.set_foreground e.state.default_foreground).map
      (fun s => { e with state := s })
  else if 40 ≤ cmd ∧ cmd ≤ 47 then
    if e.state.bold then set_background (cmd - 40 + 8) e
    else set_background (cmd - 40) e
  else if cmd = 49 then
    (e.state.set_background e.state.default_background).map
      (fun s => { e with state := s })
  else if 90 ≤ cmd ∧ cmd ≤ 97 then set_foreground (cmd - 90 + 8) e
  else if 100 ≤ cmd ∧ cmd ≤ 107 then set_background (cmd - 100 + 8) e
  else pure e

/-- `TerminalEmulator::cmd_reset_mode`. -/
def cmd_reset_mode (cmd : Int) (e : TerminalEmulator) : Option TerminalEmulator :=
  if cmd = 0 then do
    let s1 ← e.state.set_foreground e.state.default_foreground
    let s2 ← s1.set_background s1.default_background
    pure { e with state := { s2 with bold := false, reverse_video := false } }
  else if cmd = 1 then pure { e with state := { e.state with bold := false } }
  else if cmd = 7 then pure { e with state := { e.state with reverse_video := false } }
  else pure e

/-- `TerminalEmulator::cmd_process_colors`. -/
def cmd_process_colors (params : List Int) (e : TerminalEmulator) :
    Option TerminalEmulator :=
  if params = [] then pure e
  else if params.getD 0 0 = 38 then do
    let e ←
      if params.length > 1 ∧ params.getD 1 0 = 2 ∧ params.length > 4 then
        match match_color_index e.palette (params.getD 2 0) (params.getD 3 0)
            (params.getD 4 0) with
        | some color => set_foreground (color : Int) e
        | none => none
      else pure e
    if params.length > 2 ∧ params.getD 1 0 = 5 then
      set_foreground (params.getD 2 0) e
    else pure e
  else if params.getD 0 0 = 48 then do
    let e ←
      if params.length > 1 ∧ params.getD 1 0 = 2 ∧ params.length > 4 then
        match match_color_index e.palette (params.getD 2 0) (params.getD 3 0)
            (params.getD 4 0) with
        | some color => set_background (color : Int) e
        | none => none
      else pure e
    if params.length > 2 ∧ params.getD 1 0 = 5 then
      set_background (params.getD 2 0) e
    else pure e
  else params.foldlM (fun e cmd => cmd_set_mode cmd e) e

/-- `TerminalEmulator::cmd_decset`. -/
def cmd_decset (code : Int) (e : TerminalEmulator) : TerminalEmulator :=
  if code = 7 then { e with state := e.state.autowrap_on }
  else if code = 25 then { e with state := e.state.show_cursor }
  else if code = 1049 then alternate_screen_on e
  else e

/-- `TerminalEmulator::cmd_decrst`. -/
def cmd_decrst (code : Int) (e : TerminalEmulator) : TerminalEmulator :=
  if code = 7 then { e with state := e.state.autowrap_off }
  else if code = 25 then { e with state := e.state.hide_cursor }
  else if code = 1049 then alternate_screen_off e
  else e

/-- `TerminalEmulator::cmd_decstbm`. -/
def cmd_decstbm (top bottom : Int) (e : TerminalEmulator) : TerminalEmulator :=
  { e with state := e.state.set_scroll_region top bottom }

/-- `TerminalEmulator::cmd_cuu`. -/
def cmd_cuu (distance : Int) (e : TerminalEmulator) : TerminalEmulator :=
  { e with state := e.state.cursor_up distance }

/-- `TerminalEmulator::cmd_cud`. -/
def cmd_cud (distance : Int) (e : TerminalEmulator) : TerminalEmulator :=
  { e with state := e.state.cursor_down distance }

/-- `TerminalEmulator::cmd_cub`. -/
def cmd_cub (distance : Int) (e : TerminalEmulator) : TerminalEmulator :=
  { e with state := e.state.cursor_left distance }

/-- `TerminalEmulator::cmd_cuf`. -/
def cmd_cuf (distance : Int) (e : TerminalEmulator) : TerminalEmulator :=
  { e with state := e.state.cursor_right distance }

/-- `TerminalEmulator::cmd_cpl` (column 0, then up). -/
def cmd_cpl (distance : Int) (e : TerminalEmulator) : TerminalEmulator :=
  let e := { e with state := e.state.cursor_absolute_x 0 }
  { e with state := e.state.cursor_up distance }

/-- `TerminalEmulator::cmd_cnl` (column 0, then up — the source keeps
the ported Python bug of moving up instead of down). -/
def cmd_cnl (distance : Int) (e : TerminalEmulator) : TerminalEmulator :=
  let e := { e with state := e.state.cursor_absolute_x 0 }
  { e with state := e.state.cursor_up distance }

/-- `TerminalEmulator::cmd_cha`. -/
def cmd_cha (x : Int) (e : TerminalEmulator) : TerminalEmulator :=
  { e with state := e.state.cursor_absolute_x x }

/-- `TerminalEmulator::cmd_cup`. -/
def cmd_cup (x y : Int) (e : TerminalEmulator) : TerminalEmulator :=
  { e with state := e.state.cursor_absolute x y }

/-- `TerminalEmulator::cmd_ed` (erase display). -/
def cmd_ed (mode : Int) (e : TerminalEmulator) : TerminalEmulator :=
  if mode = 1 then
    let cp := e.state.cursor_get_position
    let e := (intRangeIncl 0 e.state.cursor_x).foldl
      (fun e x => write 0 { e with state := e.state.cursor_absolute_x x }) e
    let e := (intRange 0 (e.state.cursor_y - 1)).foldl
      (fun e y => (intRange 0 e.state.width).foldl
        (fun e x => write 0 { e with state := e.state.cursor_absolute x y }) e) e
    { e with state := e.state.cursor_absolute cp.1 cp.2 }
  else if mode = 0 then
    let cp := e.state.cursor_get_position
    let e := (intRange e.state.cursor_x e.state.width).foldl
      (fun e x => write 0 { e with state := e.state.cursor_absolute_x x }) e
    let e := (intRange (e.state.cursor_y + 1) e.state.height).foldl
      (fun e y => (intRange 0 e.state.width).foldl
        (fun e x => write 0 { e with state := e.state.cursor_absolute x y }) e) e
    { e with state := e.state.cursor_absolute cp.1 cp.2 }
  else if mode = 2 then
    { e with grid :=
        e.grid.clear (u8OfI32 e.state.foreground) (u8OfI32 e.state.background) }
  else e

/-- `TerminalEmulator::cmd_el` (erase line). -/
def cmd_el (mode : Int) (e : TerminalEmulator) : TerminalEmulator :=
  let cp := e.state.cursor_get_position
  let e :=
    if mode = 0 then
      (intRange e.state.cursor_x e.state.width).foldl
        (fun e x => write 0 { e with state := e.state.cursor_absolute_x x }) e
    else if mode = 1 then
      (intRangeIncl 0 e.state.cursor_x).foldl
        (fun e x => write 0 { e with state := e.state.cursor_absolute_x x }) e
    else if mode = 2 then
      (intRange 0 e.state.width).foldl
        (fun e x => write 0 { e with state := e.state.cursor_absolute_x x }) e
    else e
  { e with state := e.state.cursor_absolute cp.1 cp.2 }

/-- `TerminalEmulator::cmd_dch` (delete characters). -/
def cmd_dch (distance : Int) (e : TerminalEmulator) : TerminalEmulator :=
  let x := e.state.cursor_x
  let y := e.state.cursor_y
  let width := e.state.width
  let e := (intRange (x + distance) width).foldl
    (fun e x2 =>
      match e.grid.get_cell (usizeOfI32 x2) (usizeOfI32 y) with
      | some cell =>
        { e with grid :=
            e.grid.write_cell (usizeOfI32 (x2 - distance)) (usizeOfI32 y) cell }
      | none => e) e
  (intRange (width - distance) width).foldl
    (fun e x2 =>
      let g := e.grid.write_cell (usizeOfI32 x2) (usizeOfI32 y)
        (Cell.empty (u8OfI32 e.state.foreground) (u8OfI32 e.state.background))
      { e with grid := g })
    e

/-- `TerminalEmulator::cmd_ech` (erase characters). -/
def cmd_ech (distance : Int) (e : TerminalEmulator) : TerminalEmulator :=
  let cp := e.state.cursor_get_position
  let e := (intRange e.state.cursor_x (e.state.cursor_x + distance)).foldl
    (fun e x => write 0 { e with state := e.state.cursor_absolute_x x }) e
  { e with state := e.state.cursor_absolute cp.1 cp.2 }

/-- `TerminalEmulator::cmd_hvp`. -/
def cmd_hvp (x y : Int) (e : TerminalEmulator) : TerminalEmulator :=
  { e with state := e.state.cursor_absolute x y }

/-- `TerminalEmulator::cmd_hpa`. -/
def cmd_hpa (x : Int) (e : TerminalEmulator) : TerminalEmulator :=
  { e with state := e.state.cursor_absolute_x x }

/-- `TerminalEmulator::cmd_scp`. -/
def cmd_scp (e : TerminalEmulator) : TerminalEmulator :=
  { e with state := e.state.cursor_save_position }

/-- `TerminalEmulator::cmd_rcp`. -/
def cmd_rcp (e : TerminalEmulator) : TerminalEmulator :=
  { e with state := e.state.cursor_restore_position }

/-- `TerminalEmulator::cmd_vpa` — note the source moves to column 0. -/
def cmd_vpa (position : Int) (e : TerminalEmulator) : TerminalEmulator :=
  { e with state := e.state.cursor_absolute 0 position }

/-- `TerminalEmulator::process_single`. -/
def process_single (command : String) (e : TerminalEmulator) : TerminalEmulator :=
  let e := if command = "7" then { e with state := e.state.cursor_save_position } else e
  let e := if command = "8" then { e with state := e.state.cursor_restore_position } else e
  e

/-- `TerminalEmulator::process_csi`. -/
def process_csi (command : String) (params : List Int) (e : TerminalEmulator) :
    Option TerminalEmulator :=
  let param_len := params.length
  let value1 :=
    if param_len > 0 then params.getD 0 0
    else if command = "r" then 1 else 0
  let value2 :=
    if param_len > 1 then params.getD 1 0
    else if command = "r" then e.state.height - 1 else 0
  if command = "A" then pure (cmd_cuu value1 e)
  else if command = "B" then pure (cmd_cud value1 e)
  else if command = "C" then pure (cmd_cuf value1 e)
  else if command = "D" then pure (cmd_cub value1 e)
  else if command = "E" then pure (cmd_cnl value1 e)
  else if command = "F" then pure (cmd_cpl value1 e)
  else if command = "G" then pure (cmd_cha (value1 - 1) e)
  else if command = "H" then pure (cmd_cup (value2 - 1) (value1 - 1) e)
  else if command = "J" then pure (cmd_ed value1 e)
  else if command = "K" then pure (cmd_el value1 e)
  else if command = "P" then pure (cmd_dch value1 e)
  else if command = "X" then pure (cmd_ech value1 e)
  else if command = "d" then pure (cmd_vpa (value1 - 1) e)
  else if command = String.mk [Char.ofNat 96] then pure (cmd_hpa (value1 - 1) e)
  else if command = "f" then pure (cmd_hvp (value2 - 1) (value1 - 1) e)
  else if command = "l" then cmd_reset_mode value1 e
  else if command = "m" then cmd_process_colors params e
  else if command = "r" then pure (cmd_decstbm (value1 - 1) (value2 - 1) e)
  else if command = "s" then pure (cmd_scp e)
  else if command = "u" then pure (cmd_rcp e)
  else if command = "~" then pure e
  else if command = "?h" then pure (cmd_decset value1 e)
  else if command = "?l" then pure (cmd_decrst value1 e)
  else pure e

/-- `TerminalEmulator::process_command`. -/
def process_command (cmd : Ansi.Command) (e : TerminalEmulator) :
    Option TerminalEmulator :=
  match cmd.esc_type with
  | .Single => pure (process_single cmd.command e)
  | .Csi => process_csi cmd.command cmd.params e
  | _ => pure e

/-- Dispatch one parsed event (the event loop body of `feed_bytes`). -/
def applyEvent (ev : Ansi.Event) (e : TerminalEmulator) : Option TerminalEmulator :=
  match ev with
  | .text chars => pure (cmd_render_text chars e)
  | .command cmd => process_command cmd e

/-- `TerminalEmulator::feed_bytes` on the decoded character stream
(for the ASCII inputs used below the UTF-8 decoding is the identity). -/
def feed (text : List Char) (e : TerminalEmulator) : Option TerminalEmulator := do
  let full := e.extra_text ++ text
  let parsed := Ansi.parse full
  let e2 ← parsed.1.foldlM (fun e ev => applyEvent ev e) e
  let remaining := parsed.2
  if has_escape remaining then
    pure { e2 with extra_text := remaining }
  else
    let e3 := { e2 with extra_text := [] }
    if remaining ≠ [] then pure (cmd_render_text remaining e3) else pure e3

/-- Repeated `feed_bytes` calls. -/
def feedList (chunks : List (List Char)) (e : TerminalEmulator) :
    Option TerminalEmulator :=
  chunks.foldlM (fun e c => feed c e) e

end TerminalEmulator

/-! ## `src/encoder/gif_encoder.rs` -/

/-- The fields of `GifEncoder` the frame algorithms read (the output
stream itself is outside the embedding). -/
structure GifEncoder where
  width : Nat
  height : Nat
  previous_frame : Option (List Nat)
  transparent_index : Option Nat
  global_palette : List Nat

/-- The per-frame record assembled by `add_frame` (the `gif::Frame`
fields the code sets). -/
structure Frame where
  width : Nat
  height : Nat
  pixels : List Nat
  transparent : Option Nat
  delay : Nat
  left : Nat
  top : Nat
  palette : Option (List Nat)
  dispose_keep : Bool
deriving DecidableEq, Repr

/-- The mutable accumulator of the `compute_diff` scan. -/
structure DiffAcc where
  min_x : Nat
  min_y : Nat
  max_x : Nat
  max_y : Nat
  has_changes : Bool
deriving DecidableEq, Repr

/-- `GifEncoder::compute_diff`: bounding box of changed pixels, or the
`(0, 0, 1, 1, [curr[0]])` stub when nothing changed. -/
def GifEncoder.compute_diff (enc : GifEncoder) (prev curr : List Nat) :
    Nat × Nat × Nat × Nat × List Nat :=
  let w := enc.width
  let h := enc.height
  let acc := (List.range h).foldl
    (fun acc y => (List.range w).foldl
      (fun acc x =>
        let idx := y * w + x
        if prev.getD idx 0 ≠ curr.getD idx 0 then
          { min_x := min acc.min_x x, min_y := min acc.min_y y
            max_x := max acc.max_x x, max_y := max acc.max_y y
            has_changes := true }
        else acc)
      acc)
    (⟨w, h, 0, 0, false⟩ : DiffAcc)
  if ¬acc.has_changes then (0, 0, 1, 1, [curr.getD 0 0])
  else
    let diff_width := acc.max_x - acc.min_x + 1
    let diff_height := acc.max_y - acc.min_y + 1
    let frame_data := (natRangeIncl acc.min_y acc.max_y).flatMap
      (fun y => (natRangeIncl acc.min_x acc.max_x).map
        (fun x => curr.getD (y * w + x) 0))
    (acc.min_x, acc.min_y, diff_width, diff_height, frame_data)

/-- `GifEncoder::create_local_palette`: the sorted set of indices used
in the frame (HashSet + `sort_unstable`), the `index_map` loop (a
`vec![0u8; 256]` modelled as its lookup function, with the `as u8`
truncation of the local index), the copied RGB entries, and the
remapped data. -/
def GifEncoder.create_local_palette (enc : GifEncoder) (frame_data : List Nat) :
    List Nat × List Nat :=
  let unique_colors := frame_data.toFinset.sort (· ≤ ·)
  let index_map : Nat → Nat :=
    unique_colors.enum.foldl
      (fun f p => fun n => if n = p.2 then p.1 % 256 else f n) (fun _ => 0)
  let local_palette := unique_colors.flatMap
    (fun gi =>
      [enc.global_palette.getD (3 * gi) 0,
       enc.global_palette.getD (3 * gi + 1) 0,
       enc.global_palette.getD (3 * gi + 2) 0])
  let remapped_data := frame_data.map (fun idx => index_map idx)
  (local_palette, remapped_data)

/-- `GifEncoder::add_frame`: diff against the previous canvas (full
frame if none), save the canvas, build the local palette, assemble the
frame record. -/
def GifEncoder.add_frame (enc : GifEncoder) (canvas : List Nat) (delay : Nat) :
    Frame × GifEncoder :=
  let d :=
    match enc.previous_frame with
    | some prev => enc.compute_diff prev canvas
    | none => (0, 0, enc.width, enc.height, canvas)
  let enc2 := { enc with previous_frame := some canvas }
  let lp := enc2.create_local_palette d.2.2.2.2
  ({ width := d.2.2.1
     height := d.2.2.2.1
     pixels := lp.2
     transparent := enc.transparent_index
     delay := delay
     left := d.1
     top := d.2.1
     palette := some lp.1
     dispose_keep := true }, enc2)

/-! ## `src/main.rs` (gap removal) -/

/-- An input event as far as `remove_gaps` is concerned (only the
`f64` timestamp, modelled exactly as a rational, is touched). -/
structure REvent where
  timestamp : ℚ
deriving DecidableEq, Repr

/-- The loop body state of `remove_gaps`: `(prev_time, gap_offset)`. -/
def removeGapsStep (acc : ℚ × ℚ × List REvent) (ev : REvent) :
    ℚ × ℚ × List REvent :=
  let prev_time := acc.1
  let gap_offset := acc.2.1
  let gap := ev.timestamp - prev_time
  let gap_offset := if gap > 1 then gap_offset + (gap - 1) else gap_offset
  let t := ev.timestamp - gap_offset
  (t, gap_offset, acc.2.2 ++ [⟨t⟩])

/-- `remove_gaps` in main.rs: note that `prev_time` is updated to the
already rewritten timestamp. -/
def remove_gaps (events : List REvent) : List REvent :=
  if events.isEmpty then events
  else (events.foldl removeGapsStep (0, 0, [])).2.2

/-- Modelled from the spec (§4.5 pre-processing): for each adjacent
pair of original timestamps `gap = t_i − t_{i−1}`, `offset` accumulates
`max(0, gap − 1)`, and each `t_i` is replaced by `t_i − offset`. -/
def removeGapsSpec (events : List REvent) : List REvent :=
  match events with
  | [] => []
  | e0 :: rest =>
    let step := fun (acc : ℚ × ℚ × List REvent) (ev : REvent) =>
      let prev_orig := acc.1
      let offset := acc.2.1
      let gap := ev.timestamp - prev_orig
      let offset := offset + max 0 (gap - 1)
      (ev.timestamp, offset, acc.2.2 ++ [⟨ev.timestamp - offset⟩])
    e0 :: (rest.foldl step (e0.timestamp, 0, [])).2.2

/-! ## Helper lemmas about the cursor-motion layer -/

namespace TerminalState

/-- `t` differs from `s` in at most the cursor position, the pending
scroll and the pending-wrap flag. -/
def CursorShape (s t : TerminalState) : Prop :=
  ∃ cx cy sc pw,
    t = { s with cursor_x := cx, cursor_y := cy, scroll := sc, pending_wrap := pw }

theorem CursorShape.refl (s : TerminalState) : CursorShape s s :=
  ⟨s.cursor_x, s.cursor_y, s.scroll, s.pending_wrap, rfl⟩

theorem CursorShape.trans {s t u : TerminalState}
    (h1 : CursorShape s t) (h2 : CursorShape t u) : CursorShape s u := by
  obtain ⟨cx, cy, sc, pw, rfl⟩ := h1
  obtain ⟨cx2, cy2, sc2, pw2, rfl⟩ := h2
  exact ⟨cx2, cy2, sc2, pw2, Eq.refl _⟩

theorem cbWrap_shape (s : TerminalState) : CursorShape s (cbWrap s) := by
  unfold cbWrap; split
  · exact ⟨s.cursor_x, s.cursor_y, s.scroll, false, rfl⟩
  · exact CursorShape.refl s

theorem cbXLow_shape (s : TerminalState) : CursorShape s (cbXLow s) := by
  unfold cbXLow; split
  · exact ⟨0, s.cursor_y, s.scroll, s.pending_wrap, rfl⟩
  · exact CursorShape.refl s

theorem cbXHigh_shape (s : TerminalState) : CursorShape s (cbXHigh s) := by
  unfold cbXHigh; split
  · exact ⟨s.width - 1, s.cursor_y, s.scroll, s.pending_wrap, rfl⟩
  · exact CursorShape.refl s

theorem cbYTop_shape (s : TerminalState) : CursorShape s (cbYTop s) := by
  unfold cbYTop; split
  · split
    · exact ⟨s.cursor_x, s.scroll_top, s.scroll - (s.scroll_top - s.cursor_y),
        s.pending_wrap, rfl⟩
    · exact ⟨s.cursor_x, s.scroll_top, s.scroll, s.pending_wrap, rfl⟩
  · exact CursorShape.refl s

theorem cbYBot_shape (s : TerminalState) : CursorShape s (cbYBot s) := by
  unfold cbYBot; split
  · split
    · exact ⟨s.cursor_x, s.scroll_bottom, s.scroll + (s.cursor_y - s.scroll_bottom),
        s.pending_wrap, rfl⟩
    · exact ⟨s.cursor_x, s.scroll_bottom, s.scroll, s.pending_wrap, rfl⟩
  · exact CursorShape.refl s

theorem check_bounds_shape (s : TerminalState) : CursorShape s s.check_bounds :=
  ((((cbWrap_shape s).trans (cbXLow_shape _)).trans (cbXHigh_shape _)).trans
    (cbYTop_shape _)).trans (cbYBot_shape _)

theorem cbWrap_cursor_x (s : TerminalState) : (cbWrap s).cursor_x = s.cursor_x := by
  unfold cbWrap; split <;> rfl

theorem cbWrap_cursor_y (s : TerminalState) : (cbWrap s).cursor_y = s.cursor_y := by
  unfold cbWrap; split <;> rfl

theorem cbWrap_scroll (s : TerminalState) : (cbWrap s).scroll = s.scroll := by
  unfold cbWrap; split <;> rfl

theorem cbWrap_width (s : TerminalState) : (cbWrap s).width = s.width := by
  unfold cbWrap; split <;> rfl

theorem cbWrap_scroll_top (s : TerminalState) :
    (cbWrap s).scroll_top = s.scroll_top := by
  unfold cbWrap; split <;> rfl

theorem cbWrap_scroll_bottom (s : TerminalState) :
    (cbWrap s).scroll_bottom = s.scroll_bottom := by
  unfold cbWrap; split <;> rfl

theorem cbXLow_of_nonneg (s : TerminalState) (h : 0 ≤ s.cursor_x) :
    cbXLow s = s := by
  unfold cbXLow; rw [if_neg (not_lt.mpr h)]

theorem cbXHigh_of_lt (s : TerminalState) (h : s.cursor_x < s.width) :
    cbXHigh s = s := by
  unfold cbXHigh; rw [if_neg (not_le.mpr h)]

theorem cbYTop_of_le (s : TerminalState) (h : s.scroll_top ≤ s.cursor_y) :
    cbYTop s = s := by
  unfold cbYTop; rw [if_neg (not_lt.mpr h)]

theorem cbYBot_of_le (s : TerminalState) (h : s.cursor_y ≤ s.scroll_bottom) :
    cbYBot s = s := by
  unfold cbYBot; rw [if_neg (not_lt.mpr h)]

/-- When the cursor is already inside the horizontal bounds and the
scroll region, `check_bounds` reduces to its first statement, which
changes at most `pending_wrap`. -/
theorem check_bounds_of_in_range (s : TerminalState)
    (hx0 : 0 ≤ s.cursor_x) (hxw : s.cursor_x < s.width)
    (hyt : s.scroll_top ≤ s.cursor_y) (hyb : s.cursor_y ≤ s.scroll_bottom) :
    s.check_bounds = cbWrap s := by
  have h1 : cbXLow (cbWrap s) = cbWrap s :=
    cbXLow_of_nonneg _ (by rw [cbWrap_cursor_x]; exact hx0)
  have h2 : cbXHigh (cbWrap s) = cbWrap s :=
    cbXHigh_of_lt _ (by rw [cbWrap_cursor_x, cbWrap_width]; exact hxw)
  have h3 : cbYTop (cbWrap s) = cbWrap s :=
    cbYTop_of_le _ (by rw [cbWrap_cursor_y, cbWrap_scroll_top]; exact hyt)
  have h4 : cbYBot (cbWrap s) = cbWrap s :=
    cbYBot_of_le _ (by rw [cbWrap_cursor_y, cbWrap_scroll_bottom]; exact hyb)
  unfold check_bounds
  rw [h1, h2, h3, h4]

theorem cbXLow_cursor_x (s : TerminalState) :
    (cbXLow s).cursor_x = max s.cursor_x 0 := by
  unfold cbXLow; split_ifs <;> simp <;> omega

theorem cbXLow_cursor_y (s : TerminalState) : (cbXLow s).cursor_y = s.cursor_y := by
  unfold cbXLow; split <;> rfl

theorem cbXLow_width (s : TerminalState) : (cbXLow s).width = s.width := by
  unfold cbXLow; split <;> rfl

theorem cbXLow_scroll (s : TerminalState) : (cbXLow s).scroll = s.scroll := by
  unfold cbXLow; split <;> rfl

theorem cbXLow_scroll_top (s : TerminalState) :
    (cbXLow s).scroll_top = s.scroll_top := by
  unfold cbXLow; split <;> rfl

theorem cbXLow_scroll_bottom (s : TerminalState) :
    (cbXLow s).scroll_bottom = s.scroll_bottom := by
  unfold cbXLow; split <;> rfl

theorem cbXHigh_cursor_x (s : TerminalState) :
    (cbXHigh s).cursor_x = min s.cursor_x (s.width - 1) := by
  unfold cbXHigh; split_ifs <;> simp <;> omega

theorem cbXHigh_cursor_y (s : TerminalState) : (cbXHigh s).cursor_y = s.cursor_y := by
  unfold cbXHigh; split <;> rfl

theorem cbXHigh_scroll (s : TerminalState) : (cbXHigh s).scroll = s.scroll := by
  unfold cbXHigh; split <;> rfl

theorem cbXHigh_scroll_top (s : TerminalState) :
    (cbXHigh s).scroll_top = s.scroll_top := by
  unfold cbXHigh; split <;> rfl

theorem cbXHigh_scroll_bottom (s : TerminalState) :
    (cbXHigh s).scroll_bottom = s.scroll_bottom := by
  unfold cbXHigh; split <;> rfl

theorem cbYTop_cursor_x (s : TerminalState) : (cbYTop s).cursor_x = s.cursor_x := by
  unfold cbYTop; split_ifs <;> rfl

theorem cbYTop_cursor_y (s : TerminalState) :
    (cbYTop s).cursor_y = max s.cursor_y s.scroll_top := by
  unfold cbYTop; split_ifs <;> simp <;> omega

theorem cbYTop_scroll_bottom (s : TerminalState) :
    (cbYTop s).scroll_bottom = s.scroll_bottom := by
  unfold cbYTop; split_ifs <;> rfl

theorem cbYBot_cursor_x (s : TerminalState) : (cbYBot s).cursor_x = s.cursor_x := by
  unfold cbYBot; split_ifs <;> rfl

theorem cbYBot_cursor_y (s : TerminalState) :
    (cbYBot s).cursor_y = min s.cursor_y s.scroll_bottom := by
  unfold cbYBot; split_ifs <;> simp <;> omega

theorem cbWrap_mode (s : TerminalState) : (cbWrap s).mode = s.mode := by
  unfold cbWrap; split <;> rfl

theorem cbWrap_text_mode (s : TerminalState) :
    (cbWrap s).text_mode = s.text_mode := by
  unfold cbWrap; split <;> rfl

theorem cbWrap_height (s : TerminalState) : (cbWrap s).height = s.height := by
  unfold cbWrap; split <;> rfl

theorem cbWrap_foreground (s : TerminalState) :
    (cbWrap s).foreground = s.foreground := by
  unfold cbWrap; split <;> rfl

theorem cbWrap_background (s : TerminalState) :
    (cbWrap s).background = s.background := by
  unfold cbWrap; split <;> rfl

theorem check_bounds_mode (s : TerminalState) : s.check_bounds.mode = s.mode := by
  obtain ⟨cx, cy, sc, pw, h⟩ := check_bounds_shape s; rw [h]

theorem check_bounds_width (s : TerminalState) : s.check_bounds.width = s.width := by
  obtain ⟨cx, cy, sc, pw, h⟩ := check_bounds_shape s; rw [h]

theorem check_bounds_height (s : TerminalState) :
    s.check_bounds.height = s.height := by
  obtain ⟨cx, cy, sc, pw, h⟩ := check_bounds_shape s; rw [h]

theorem check_bounds_text_mode (s : TerminalState) :
    s.check_bounds.text_mode = s.text_mode := by
  obtain ⟨cx, cy, sc, pw, h⟩ := check_bounds_shape s; rw [h]

theorem check_bounds_foreground (s : TerminalState) :
    s.check_bounds.foreground = s.foreground := by
  obtain ⟨cx, cy, sc, pw, h⟩ := check_bounds_shape s; rw [h]

theorem check_bounds_background (s : TerminalState) :
    s.check_bounds.background = s.background := by
  obtain ⟨cx, cy, sc, pw, h⟩ := check_bounds_shape s; rw [h]

theorem check_bounds_default_foreground (s : TerminalState) :
    s.check_bounds.default_foreground = s.default_foreground := by
  obtain ⟨cx, cy, sc, pw, h⟩ := check_bounds_shape s; rw [h]

theorem check_bounds_default_background (s : TerminalState) :
    s.check_bounds.default_background = s.default_background := by
  obtain ⟨cx, cy, sc, pw, h⟩ := check_bounds_shape s; rw [h]

theorem check_bounds_flags (s : TerminalState) : s.check_bounds.flags = s.flags := by
  obtain ⟨cx, cy, sc, pw, h⟩ := check_bounds_shape s; rw [h]

theorem check_bounds_scroll_top (s : TerminalState) :
    s.check_bounds.scroll_top = s.scroll_top := by
  obtain ⟨cx, cy, sc, pw, h⟩ := check_bounds_shape s; rw [h]

theorem check_bounds_scroll_bottom (s : TerminalState) :
    s.check_bounds.scroll_bottom = s.scroll_bottom := by
  obtain ⟨cx, cy, sc, pw, h⟩ := check_bounds_shape s; rw [h]

theorem check_bounds_autowrap (s : TerminalState) :
    s.check_bounds.autowrap = s.autowrap := by
  obtain ⟨cx, cy, sc, pw, h⟩ := check_bounds_shape s; rw [h]

theorem check_bounds_bold (s : TerminalState) : s.check_bounds.bold = s.bold := by
  obtain ⟨cx, cy, sc, pw, h⟩ := check_bounds_shape s; rw [h]

theorem check_bounds_reverse_video (s : TerminalState) :
    s.check_bounds.reverse_video = s.reverse_video := by
  obtain ⟨cx, cy, sc, pw, h⟩ := check_bounds_shape s; rw [h]

/-- A cursor overflow below the scroll bottom in text mode: the region
is scrolled (pending) and the cursor clamped to the bottom row. -/
theorem check_bounds_overflow_text (s : TerminalState)
    (hx0 : 0 ≤ s.cursor_x) (hxw : s.cursor_x < s.width)
    (hyt : s.scroll_top ≤ s.cursor_y) (hyb : s.scroll_bottom < s.cursor_y)
    (htm : s.text_mode = true) :
    s.check_bounds = { cbWrap s with
      scroll := s.scroll + (s.cursor_y - s.scroll_bottom),
      cursor_y := s.scroll_bottom } := by
  have h1 : cbXLow (cbWrap s) = cbWrap s :=
    cbXLow_of_nonneg _ (by rw [cbWrap_cursor_x]; exact hx0)
  have h2 : cbXHigh (cbWrap s) = cbWrap s :=
    cbXHigh_of_lt _ (by rw [cbWrap_cursor_x, cbWrap_width]; exact hxw)
  have h3 : cbYTop (cbWrap s) = cbWrap s :=
    cbYTop_of_le _ (by rw [cbWrap_cursor_y, cbWrap_scroll_top]; exact hyt)
  unfold check_bounds
  rw [h1, h2, h3]
  unfold cbYBot
  rw [if_pos (by rw [cbWrap_cursor_y, cbWrap_scroll_bottom]; exact hyb),
    if_pos (by rw [cbWrap_text_mode]; exact htm)]
  simp only [cbWrap_scroll, cbWrap_cursor_y, cbWrap_scroll_bottom]

/-- The net cursor-column clamp of `check_bounds`. -/
theorem check_bounds_cursor_x (s : TerminalState) :
    s.check_bounds.cursor_x = min (max s.cursor_x 0) (s.width - 1) := by
  unfold check_bounds
  rw [cbYBot_cursor_x, cbYTop_cursor_x, cbXHigh_cursor_x, cbXLow_cursor_x,
    cbXLow_width, cbWrap_cursor_x, cbWrap_width]

/-- The net cursor-row clamp of `check_bounds`. -/
theorem check_bounds_cursor_y (s : TerminalState) :
    s.check_bounds.cursor_y = min (max s.cursor_y s.scroll_top) s.scroll_bottom := by
  unfold check_bounds
  rw [cbYBot_cursor_y, cbYTop_cursor_y, cbYTop_scroll_bottom, cbXHigh_cursor_y,
    cbXHigh_scroll_top, cbXHigh_scroll_bottom, cbXLow_cursor_y, cbXLow_scroll_top,
    cbXLow_scroll_bottom, cbWrap_cursor_y, cbWrap_scroll_top, cbWrap_scroll_bottom]

/-- When the cursor is already inside the horizontal bounds and the
scroll region, `check_bounds` leaves cursor and scroll untouched. -/
theorem check_bounds_in_range (s : TerminalState)
    (hx0 : 0 ≤ s.cursor_x) (hxw : s.cursor_x < s.width)
    (hyt : s.scroll_top ≤ s.cursor_y) (hyb : s.cursor_y ≤ s.scroll_bottom) :
    s.check_bounds.cursor_x = s.cursor_x ∧
    s.check_bounds.cursor_y = s.cursor_y ∧
    s.check_bounds.scroll = s.scroll := by
  rw [check_bounds_of_in_range s hx0 hxw hyt hyb]
  exact ⟨cbWrap_cursor_x s, cbWrap_cursor_y s, cbWrap_scroll s⟩

end TerminalState

/-! ## Helper lemmas about the grid scroll loops -/

namespace Grid

theorem clearRowLoop_cells (w fg bg y : Nat) (cells : Nat → Nat → Cell)
    (a b2 : Nat) :
    Grid.clearRowLoop w fg bg y cells a b2 =
      if a < w ∧ b2 = y then Cell.empty fg bg else cells a b2 := by
  induction w generalizing a b2 with
  | zero => simp [Grid.clearRowLoop]
  | succ w ih =>
    have hs : Grid.clearRowLoop (w + 1) fg bg y cells =
        (fun p q => if p = w ∧ q = y then Cell.empty fg bg
          else Grid.clearRowLoop w fg bg y cells p q) := by
      unfold Grid.clearRowLoop
      rw [List.range_succ, List.foldl_append]
      rfl
    rw [hs]
    simp only []
    by_cases hb : b2 = y
    · by_cases ha : a = w
      · rw [if_pos ⟨ha, hb⟩, if_pos ⟨by omega, hb⟩]
      · rw [if_neg (by tauto), ih]
        by_cases haw : a < w
        · rw [if_pos ⟨haw, hb⟩, if_pos ⟨by omega, hb⟩]
        · rw [if_neg (by tauto), if_neg (by rintro ⟨h, -⟩; omega)]
    · rw [if_neg (by tauto), ih, if_neg (by tauto), if_neg (by tauto)]

theorem shiftRowUpLoop_cells (w h bottom lines y : Nat)
    (cells : Nat → Nat → Cell) (a b2 : Nat)
    (hg : y + lines ≤ bottom ∧ y + lines < h) :
    Grid.shiftRowUpLoop w h bottom lines y cells a b2 =
      if a < w ∧ b2 = y then cells a (y + lines) else cells a b2 := by
  induction w generalizing a b2 with
  | zero => simp [Grid.shiftRowUpLoop]
  | succ w ih =>
    have hs : Grid.shiftRowUpLoop (w + 1) h bottom lines y cells =
        (fun p q => if p = w ∧ q = y
          then Grid.shiftRowUpLoop w h bottom lines y cells w (y + lines)
          else Grid.shiftRowUpLoop w h bottom lines y cells p q) := by
      unfold Grid.shiftRowUpLoop
      rw [List.range_succ, List.foldl_append]
      simp only [List.foldl_cons, List.foldl_nil, if_pos hg]
    rw [hs]
    simp only []
    have hread : Grid.shiftRowUpLoop w h bottom lines y cells w (y + lines) =
        cells w (y + lines) := by
      rw [ih _ _]
      rw [if_neg (by rintro ⟨hlt, -⟩; omega)]
    by_cases hb : b2 = y
    · by_cases ha : a = w
      · rw [if_pos ⟨ha, hb⟩, if_pos ⟨by omega, hb⟩, hread, ha]
      · rw [if_neg (by tauto), ih]
        by_cases haw : a < w
        · rw [if_pos ⟨haw, hb⟩, if_pos ⟨by omega, hb⟩]
        · rw [if_neg (by tauto), if_neg (by rintro ⟨hlt, -⟩; omega)]
    · rw [if_neg (by tauto), ih, if_neg (by tauto), if_neg (by tauto)]

theorem clearRows_cells (n lo w fg bg : Nat) (cells : Nat → Nat → Cell)
    (a b2 : Nat) :
    (((List.range n).map (fun i => lo + i)).foldl
        (fun f y => Grid.clearRowLoop w fg bg y f) cells) a b2 =
      if a < w ∧ lo ≤ b2 ∧ b2 < lo + n then Cell.empty fg bg
      else cells a b2 := by
  induction n generalizing a b2 with
  | zero =>
    simp only [List.range_zero, List.map_nil, List.foldl_nil]
    rw [if_neg (by omega)]
  | succ n ih =>
    rw [List.range_succ, List.map_append, List.foldl_append]
    simp only [List.map_cons, List.map_nil, List.foldl_cons, List.foldl_nil]
    rw [clearRowLoop_cells]
    by_cases hb : b2 = lo + n
    · by_cases ha : a < w
      · rw [if_pos ⟨ha, hb⟩, if_pos ⟨ha, by omega, by omega⟩]
      · rw [if_neg (by tauto), ih, if_neg (by tauto), if_neg (by tauto)]
    · rw [if_neg (by tauto), ih]
      by_cases hr : a < w ∧ lo ≤ b2 ∧ b2 < lo + n
      · rw [if_pos hr, if_pos ⟨hr.1, hr.2.1, by omega⟩]
      · rw [if_neg hr, if_neg (by rintro ⟨h1, h2, h3⟩; exact hr ⟨h1, h2, by omega⟩)]

theorem shiftRows1_cells (n t w h bottom : Nat) (cells : Nat → Nat → Cell)
    (a b2 : Nat) (hbound : t + n ≤ bottom) (hh : bottom < h) :
    (((List.range n).map (fun i => t + i)).foldl
        (fun f y => Grid.shiftRowUpLoop w h bottom 1 y f) cells) a b2 =
      if a < w ∧ t ≤ b2 ∧ b2 < t + n then cells a (b2 + 1)
      else cells a b2 := by
  induction n generalizing a b2 with
  | zero =>
    simp only [List.range_zero, List.map_nil, List.foldl_nil]
    rw [if_neg (by omega)]
  | succ n ih =>
    rw [List.range_succ, List.map_append, List.foldl_append]
    simp only [List.map_cons, List.map_nil, List.foldl_cons, List.foldl_nil]
    rw [shiftRowUpLoop_cells _ _ _ _ _ _ _ _ ⟨by omega, by omega⟩]
    by_cases hb : b2 = t + n
    · by_cases ha : a < w
      · rw [if_pos ⟨ha, hb⟩, if_pos ⟨ha, by omega, by omega⟩]
        rw [ih _ _ (by omega)]
        rw [if_neg (by rintro ⟨-, -, h3⟩; omega), hb]
      · rw [if_neg (by tauto), ih _ _ (by omega), if_neg (by tauto),
          if_neg (by tauto)]
    · rw [if_neg (by tauto), ih _ _ (by omega)]
      by_cases hr : a < w ∧ t ≤ b2 ∧ b2 < t + n
      · rw [if_pos hr, if_pos ⟨hr.1, hr.2.1, by omega⟩]
      · rw [if_neg hr, if_neg (by rintro ⟨h1, h2, h3⟩; exact hr ⟨h1, h2, by omega⟩)]

/-- Net effect of `scroll_region_up` by one line with the bottom row
inside the grid: rows `top..bottom-1` take the next row's cells, row
`bottom` is cleared, everything else (and every column `≥ width`) is
untouched. -/
theorem scroll_region_up_one (g : Grid) (t b fg bg : Nat) (hbh : b < g.height) :
    ∀ a b2, (g.scroll_region_up t b 1 fg bg).cells a b2 =
      if a < g.width ∧ t ≤ b2 ∧ b2 < b then g.cells a (b2 + 1)
      else if a < g.width ∧ b2 = b ∧ t ≤ b then Cell.empty fg bg
      else g.cells a b2 := by
  intro a b2
  unfold Grid.scroll_region_up
  by_cases hbt : b ≤ t
  · rw [if_pos (by omega)]
    show (natRangeIncl t (min b (g.height - 1))).foldl
        (fun f y => Grid.clearRowLoop g.width fg bg y f) g.cells a b2 = _
    unfold natRangeIncl
    rw [clearRows_cells]
    split_ifs <;> first | rfl | omega
  · rw [if_neg (by omega)]
    show (natRangeIncl (b + 1 - 1) (min b (g.height - 1))).foldl
        (fun f y => Grid.clearRowLoop g.width fg bg y f)
        ((natRangeIncl t (min (b - 1) (g.height - 1))).foldl
          (fun f y => Grid.shiftRowUpLoop g.width g.height b 1 y f) g.cells)
        a b2 = _
    unfold natRangeIncl
    rw [clearRows_cells, shiftRows1_cells _ _ _ _ _ _ _ _ (by omega) hbh]
    split_ifs <;> first | rfl | omega

end Grid

/-! ## Concrete test emulator -/

/-- A freshly initialized 10×3 emulator with autowrap on and default
colors 7 / 0 (the spec's §8 test configuration). -/
def init10x3 : TerminalEmulator := TerminalEmulator.new 10 3 true 7 0

/-! ## Claim theorems -/

/-- C1 (counter-evaluation): chunk-boundary invariance fails.  The byte
stream `B = "\x1b]X\x1b[1mZ" ++ "\x07"` fed in one call is consumed
entirely as one OSC sequence (BEL-terminated) and leaves the grid
blank, but fed as the two chunks the unterminated OSC prefix of the
first chunk is emitted as literal text, so cell (0,0) holds `]`. -/
theorem feed_chunk_invariance_fails :
    ((TerminalEmulator.feed "\x1b]X\x1b[1mZ".toList init10x3).bind
        (TerminalEmulator.feed "\x07".toList)).map
      (fun e => (e.grid.cells 0 0).character) = some ']' ∧
    (TerminalEmulator.feed ("\x1b]X\x1b[1mZ".toList ++ "\x07".toList) init10x3).map
      (fun e => (e.grid.cells 0 0).character) = some ' ' ∧
    (']' : Char) ≠ ' ' := by
  refine ⟨by decide, by decide, by decide⟩

/-- C2 (counter-evaluation): the cursor-bounds invariant fails.  After
`CSI 1;999 r` (whose second parameter lies outside `[1, H]`) the scroll
region bottom is 998, so three line feeds push `cursor_y` to `3` on a
height-3 emulator, violating `0 ≤ cy < H`. -/
theorem cursor_bounds_invariant_fails :
    (TerminalEmulator.feed "\x1b[1;999r\n\n\n".toList init10x3).map
      (fun e => (e.state.cursor_y, e.state.height)) = some (3, 3) ∧
    ¬((3 : Int) < 3) := by
  refine ⟨by decide, by decide⟩

/-- C3 (counter-evaluation): `remove_gaps` updates `prev_time` to the
already-rewritten timestamp, so on original timestamps `[0, 3, 6]` it
produces `[0, 1, 0]` (not even non-decreasing), while the spec's
adjacent-pair rule produces `[0, 1, 2]`. -/
theorem remove_gaps_failing_input :
    remove_gaps [⟨0⟩, ⟨3⟩, ⟨6⟩] = [⟨0⟩, ⟨1⟩, ⟨0⟩] ∧
    removeGapsSpec [⟨0⟩, ⟨3⟩, ⟨6⟩] = [⟨0⟩, ⟨1⟩, ⟨2⟩] ∧
    ¬((1 : ℚ) ≤ 0) := by
  refine ⟨?_, ?_, by norm_num⟩ <;>
    norm_num [remove_gaps, removeGapsStep, removeGapsSpec]

/-- C4 (counterexample): erase-display 2 blanks with the *current*
colors, and `CSI H` clamps to the scroll region top.  After
`SGR 31`, `CSI 2;3 r`, `CSI 2 J`, `CSI H` the blanked cells carry
foreground 1 (not the default 7) and the cursor is at row 1 (not 0). -/
theorem csi2J_default_colors_cex :
    (TerminalEmulator.feed "\x1b[31m\x1b[2;3r\x1b[2J\x1b[H".toList init10x3).map
      (fun e => ((e.grid.cells 0 0).fg_color, e.state.default_foreground,
                 e.state.cursor_x, e.state.cursor_y))
      = some (1, 7, 0, 1) ∧
    (1 : Nat) ≠ 7 ∧ (1 : Int) ≠ 0 := by
  refine ⟨by decide, by decide, by decide⟩

/-- C4 (amended): from any emulator state with a well-formed scroll
region, `CSI 2 J` then `CSI H` leaves every cell blank in the *current*
foreground/background colors with empty flags, and the cursor at column
0, row `scroll_top` (which is row 0 whenever the scroll region starts at
the top). -/
theorem csi2J_csiH_current_colors (e : TerminalEmulator)
    (hw : 0 < e.state.width)
    (ht0 : 0 ≤ e.state.scroll_top)
    (htb : e.state.scroll_top ≤ e.state.scroll_bottom) :
    ∃ r, (TerminalEmulator.process_csi "J" [2] e).bind
        (TerminalEmulator.process_csi "H" [1, 1]) = some r ∧
      (∀ x y, r.grid.cells x y =
        Cell.empty (u8OfI32 e.state.foreground) (u8OfI32 e.state.background)) ∧
      r.state.cursor_x = 0 ∧ r.state.cursor_y = e.state.scroll_top := by
  refine ⟨TerminalEmulator.cmd_cup 0 0 (TerminalEmulator.cmd_ed 2 e), rfl,
    fun x y => rfl, ?_, ?_⟩
  · have hx := TerminalState.check_bounds_cursor_x
      ({ e.state with cursor_x := 0, cursor_y := 0 })
    have hx2 : (TerminalEmulator.cmd_cup 0 0 (TerminalEmulator.cmd_ed 2 e)).state.cursor_x
        = min (max 0 0) (e.state.width - 1) := hx
    rw [hx2]; omega
  · have hy := TerminalState.check_bounds_cursor_y
      ({ e.state with cursor_x := 0, cursor_y := 0 })
    have hy2 : (TerminalEmulator.cmd_cup 0 0 (TerminalEmulator.cmd_ed 2 e)).state.cursor_y
        = min (max 0 e.state.scroll_top) e.state.scroll_bottom := hy
    rw [hy2]; omega

/-- C4 witness: the amended theorem on the fresh 10×3 emulator, where
the erase uses the (still default) current colors and the cursor lands
at `(0, 0)`. -/
theorem csi2J_csiH_current_colors_witness :
    0 < init10x3.state.width ∧
    0 ≤ init10x3.state.scroll_top ∧
    init10x3.state.scroll_top ≤ init10x3.state.scroll_bottom ∧
    ∃ r, (TerminalEmulator.process_csi "J" [2] init10x3).bind
        (TerminalEmulator.process_csi "H" [1, 1]) = some r ∧
      (∀ x y, r.grid.cells x y =
        Cell.empty (u8OfI32 init10x3.state.foreground)
          (u8OfI32 init10x3.state.background)) ∧
      r.state.cursor_x = 0 ∧ r.state.cursor_y = init10x3.state.scroll_top :=
  ⟨by decide, by decide, by decide,
    csi2J_csiH_current_colors init10x3 (by decide) (by decide) (by decide)⟩

/-- C5 (counterexample): the scroll triggered by an LF at the region
bottom is deferred.  With region `(1, 2)`, `B` written at `(0, 2)` and
an LF fed at row 2, the grid still shows `B` at `(0, 2)` (bottom row
not cleared) and `(0, 1)` still blank (rows not shifted); only the
pending `scroll = 1` records the shift. -/
theorem lf_scroll_deferred_cex :
    (TerminalEmulator.feed "A\x1b[2;3r\x1b[3;1HB\n".toList init10x3).map
      (fun e => ((e.grid.cells 0 2).character, (e.grid.cells 0 1).character,
                 e.state.cursor_y, e.state.scroll,
                 e.state.scroll_top, e.state.scroll_bottom))
      = some ('B', ' ', 2, 1, 1, 2) ∧
    ('B' : Char) ≠ ' ' := by
  refine ⟨by decide, by decide⟩

/-- C6 (counterexample): `CSI 2 d` (VPA) resets the column.  After
writing `12345` the cursor column is 5, but `CSI 2 d` moves the cursor
to `(0, 1)`: the column is not left unchanged. -/
theorem vpa_column_cex :
    (TerminalEmulator.feed "12345".toList init10x3).map
      (fun e => e.state.cursor_x) = some 5 ∧
    (TerminalEmulator.feed "12345\x1b[2d".toList init10x3).map
      (fun e => (e.state.cursor_x, e.state.cursor_y)) = some (0, 1) ∧
    (0 : Int) ≠ 5 := by
  refine ⟨by decide, by decide, by decide⟩

/-- `scroll_buffer` with a positive pending scroll applies
`scroll_region_up` and resets the pending scroll. -/
theorem scroll_buffer_pos (em : TerminalEmulator) (h : 0 < em.state.scroll) :
    TerminalEmulator.scroll_buffer em =
      { em with
        grid := em.grid.scroll_region_up (usizeOfI32 em.state.scroll_top)
          (usizeOfI32 em.state.scroll_bottom) em.state.scroll.natAbs
          (u8OfI32 em.state.foreground) (u8OfI32 em.state.background)
        state := { em.state with scroll := 0 } } := by
  unfold TerminalEmulator.scroll_buffer
  simp only []
  rw [if_pos (show em.state.scroll > 0 from h)]

/-- `x as usize` is `x.toNat` for nonnegative `x`. -/
theorem usizeOfI32_nonneg (x : Int) (h : 0 ≤ x) : usizeOfI32 x = x.toNat := by
  unfold usizeOfI32; rw [if_pos h]

/-- Feeding a lone LF renders it as: text mode on, cursor down one,
carriage return (linux mode), text mode off. -/
theorem renderChar_lf_eq (e : TerminalEmulator) (h0 : e.state.scroll = 0)
    (hm : e.state.mode = "linux") :
    TerminalEmulator.renderChar '\n' e =
      { e with state := (e.state.cursor_down 1).cursor_absolute_x 0 } := by
  have hmode : (({ e with state := e.state.cursor_down 1 } :
      TerminalEmulator)).state.mode = "linux" :=
    (TerminalState.check_bounds_mode _).trans hm
  unfold TerminalEmulator.renderChar
  rw [if_neg (show ¬(e.state.scroll ≠ 0) from by simp [h0])]
  simp only []
  rw [if_pos (show Char.toNat '\n' < 32 from by decide),
    if_neg (show ¬(Char.toNat '\n' = 8) from by decide),
    if_neg (show ¬(Char.toNat '\n' = 9) from by decide),
    if_pos (show Char.toNat '\n' = 10 from by decide),
    if_pos hmode]

/-- `cmd_render_text` on a lone LF. -/
theorem cmd_render_text_lf (e : TerminalEmulator) (h0 : e.state.scroll = 0)
    (hm : e.state.mode = "linux") :
    TerminalEmulator.cmd_render_text ['\n'] e =
      { e with state :=
          ((((e.state.text_mode_on).cursor_down 1).cursor_absolute_x
            0)).text_mode_off } := by
  unfold TerminalEmulator.cmd_render_text
  simp only [List.foldl_cons, List.foldl_nil]
  rw [renderChar_lf_eq { e with state := e.state.text_mode_on } h0 hm]

/-- C5 (amended): an LF fed at the scroll-region bottom leaves the
cursor at the bottom row and the grid untouched, recording the shift as
`scroll = 1`; flushing that pending scroll (which the processing of the
next character does through `scroll_buffer`) shifts rows
`top..bottom-1` up by one, clears row `bottom`, and preserves every row
outside the region. -/
theorem lf_at_bottom_deferred_scroll (e : TerminalEmulator)
    (hscroll : e.state.scroll = 0)
    (hcy : e.state.cursor_y = e.state.scroll_bottom)
    (hcx0 : 0 ≤ e.state.cursor_x) (hcxw : e.state.cursor_x < e.state.width)
    (ht0 : 0 ≤ e.state.scroll_top)
    (htb : e.state.scroll_top ≤ e.state.scroll_bottom)
    (hbh : e.state.scroll_bottom < e.state.height)
    (hmode : e.state.mode = "linux")
    (hgh : e.state.height = (e.grid.height : Int)) :
    ∃ e1, TerminalEmulator.cmd_render_text ['\n'] e = e1 ∧
      e1.state.cursor_y = e.state.scroll_bottom ∧
      e1.state.scroll = 1 ∧
      e1.grid = e.grid ∧
      (∀ a b2, b2 < e.state.scroll_top.toNat ∨ e.state.scroll_bottom.toNat < b2 →
        (TerminalEmulator.scroll_buffer e1).grid.cells a b2 = e.grid.cells a b2) ∧
      (∀ a b2, a < e.grid.width → e.state.scroll_top.toNat ≤ b2 →
          b2 < e.state.scroll_bottom.toNat →
        (TerminalEmulator.scroll_buffer e1).grid.cells a b2 =
          e.grid.cells a (b2 + 1)) ∧
      (∀ a, a < e.grid.width →
        (TerminalEmulator.scroll_buffer e1).grid.cells a
            e.state.scroll_bottom.toNat =
          Cell.empty (u8OfI32 e.state.foreground) (u8OfI32 e.state.background)) := by
  have hwpos : 0 < e.state.width := lt_of_le_of_lt hcx0 hcxw
  -- the cursor_down 1 step overflows the bottom of the scroll region
  have hs1 : (e.state.text_mode_on).cursor_down 1 =
      { TerminalState.cbWrap
          { e.state.text_mode_on with
              cursor_y := (e.state.text_mode_on).cursor_y + 1 } with
        scroll := e.state.scroll + ((e.state.cursor_y + 1) - e.state.scroll_bottom),
        cursor_y := e.state.scroll_bottom } :=
    TerminalState.check_bounds_overflow_text _ hcx0 hcxw (by
      show e.state.scroll_top ≤ e.state.cursor_y + 1
      omega) (by
      show e.state.scroll_bottom < e.state.cursor_y + 1
      omega) rfl
  set s1 := (e.state.text_mode_on).cursor_down 1 with hs1def
  have h1cy : s1.cursor_y = e.state.scroll_bottom := by rw [hs1]
  have h1sc : s1.scroll = 1 := by rw [hs1]; show e.state.scroll + _ = 1; omega
  have h1st : s1.scroll_top = e.state.scroll_top := by
    rw [hs1]; exact TerminalState.cbWrap_scroll_top _
  have h1sb : s1.scroll_bottom = e.state.scroll_bottom := by
    rw [hs1]; exact TerminalState.cbWrap_scroll_bottom _
  have h1w : s1.width = e.state.width := by
    rw [hs1]; exact TerminalState.cbWrap_width _
  have h1fg : s1.foreground = e.state.foreground := by
    rw [hs1]; exact TerminalState.cbWrap_foreground _
  have h1bg : s1.background = e.state.background := by
    rw [hs1]; exact TerminalState.cbWrap_background _
  -- the carriage return stays inside the region
  have hs2 : s1.cursor_absolute_x 0 =
      TerminalState.cbWrap { s1 with cursor_x := 0 } :=
    TerminalState.check_bounds_of_in_range _ (le_refl 0)
      (by show (0 : Int) < s1.width; omega)
      (by show s1.scroll_top ≤ s1.cursor_y; omega)
      (by show s1.cursor_y ≤ s1.scroll_bottom; omega)
  set s2 := s1.cursor_absolute_x 0 with hs2def
  have h2cy : s2.cursor_y = e.state.scroll_bottom := by
    rw [hs2]; rw [TerminalState.cbWrap_cursor_y]; exact h1cy
  have h2sc : s2.scroll = 1 := by
    rw [hs2]; rw [TerminalState.cbWrap_scroll]; exact h1sc
  have h2st : s2.scroll_top = e.state.scroll_top := by
    rw [hs2]; rw [TerminalState.cbWrap_scroll_top]; exact h1st
  have h2sb : s2.scroll_bottom = e.state.scroll_bottom := by
    rw [hs2]; rw [TerminalState.cbWrap_scroll_bottom]; exact h1sb
  have h2fg : s2.foreground = e.state.foreground := by
    rw [hs2]; rw [TerminalState.cbWrap_foreground]; exact h1fg
  have h2bg : s2.background = e.state.background := by
    rw [hs2]; rw [TerminalState.cbWrap_background]; exact h1bg
  -- the rendered emulator
  refine ⟨{ e with state := s2.text_mode_off }, ?_, h2cy, h2sc, rfl, ?_⟩
  · rw [cmd_render_text_lf e hscroll hmode]
  -- the deferred flush
  have hflush : TerminalEmulator.scroll_buffer { e with state := s2.text_mode_off } =
      { e with
        grid := e.grid.scroll_region_up (usizeOfI32 s2.scroll_top)
          (usizeOfI32 s2.scroll_bottom) ((s2.scroll).natAbs)
          (u8OfI32 s2.foreground) (u8OfI32 s2.background)
        state := { s2.text_mode_off with scroll := 0 } } := by
    rw [scroll_buffer_pos _ (show (0 : Int) <
      ({ e with state := s2.text_mode_off } : TerminalEmulator).state.scroll from by
        show (0 : Int) < s2.scroll; omega)]
    rfl
  rw [hflush]
  have hb2 : usizeOfI32 s2.scroll_bottom = e.state.scroll_bottom.toNat := by
    rw [h2sb, usizeOfI32_nonneg _ (by omega)]
  have ht2 : usizeOfI32 s2.scroll_top = e.state.scroll_top.toNat := by
    rw [h2st, usizeOfI32_nonneg _ ht0]
  have hamount : (s2.scroll).natAbs = 1 := by rw [h2sc]; rfl
  have hbh2 : e.state.scroll_bottom.toNat < e.grid.height := by omega
  have hnet := Grid.scroll_region_up_one e.grid e.state.scroll_top.toNat
    e.state.scroll_bottom.toNat (u8OfI32 s2.foreground) (u8OfI32 s2.background)
    hbh2
  rw [ht2, hb2, hamount, h2fg, h2bg]
  rw [h2fg, h2bg] at hnet
  refine ⟨?_, ?_, ?_⟩
  · intro a b2 hout
    rw [hnet a b2, if_neg (by omega), if_neg (by omega)]
  · intro a b2 ha hb hlt
    rw [hnet a b2, if_pos ⟨ha, hb, hlt⟩]
  · intro a ha
    rw [hnet a _, if_neg (by omega), if_pos ⟨ha, rfl, by omega⟩]

/-- A 10×3 emulator with scroll region `(1, 2)` and the cursor parked
at the bottom row of the region. -/
def regionEmu : TerminalEmulator :=
  { init10x3 with state :=
      { init10x3.state with cursor_y := 2, scroll_top := 1, scroll_bottom := 2 } }

/-- C5 witness: the amended deferred-scroll theorem on the concrete
10×3 emulator with region `(1, 2)` and the cursor at row 2. -/
theorem lf_at_bottom_deferred_scroll_witness :
    regionEmu.state.scroll = 0 ∧
    regionEmu.state.cursor_y = regionEmu.state.scroll_bottom ∧
    0 ≤ regionEmu.state.cursor_x ∧
    regionEmu.state.cursor_x < regionEmu.state.width ∧
    0 ≤ regionEmu.state.scroll_top ∧
    regionEmu.state.scroll_top ≤ regionEmu.state.scroll_bottom ∧
    regionEmu.state.scroll_bottom < regionEmu.state.height ∧
    regionEmu.state.mode = "linux" ∧
    regionEmu.state.height = (regionEmu.grid.height : Int) ∧
    (∃ e1, TerminalEmulator.cmd_render_text ['\n'] regionEmu = e1 ∧
      e1.state.cursor_y = regionEmu.state.scroll_bottom ∧
      e1.state.scroll = 1 ∧
      e1.grid = regionEmu.grid ∧
      (∀ a b2, b2 < regionEmu.state.scroll_top.toNat ∨
          regionEmu.state.scroll_bottom.toNat < b2 →
        (TerminalEmulator.scroll_buffer e1).grid.cells a b2 =
          regionEmu.grid.cells a b2) ∧
      (∀ a b2, a < regionEmu.grid.width → regionEmu.state.scroll_top.toNat ≤ b2 →
          b2 < regionEmu.state.scroll_bottom.toNat →
        (TerminalEmulator.scroll_buffer e1).grid.cells a b2 =
          regionEmu.grid.cells a (b2 + 1)) ∧
      (∀ a, a < regionEmu.grid.width →
        (TerminalEmulator.scroll_buffer e1).grid.cells a
            regionEmu.state.scroll_bottom.toNat =
          Cell.empty (u8OfI32 regionEmu.state.foreground)
            (u8OfI32 regionEmu.state.background))) :=
  ⟨by decide, by decide, by decide, by decide, by decide, by decide, by decide,
    rfl, by decide,
    lf_at_bottom_deferred_scroll regionEmu (by decide) (by decide) (by decide)
      (by decide) (by decide) (by decide) (by decide) rfl (by decide)⟩

/-- C6 (amended): for `n ≥ 1` with `n − 1` inside the scroll region,
the CSI sequence `n d` (VPA) moves the cursor to absolute row `n − 1`
and column 0 (the source resets the column). -/
theorem vpa_row_and_column (e : TerminalEmulator) (n : Int)
    (hw : 0 < e.state.width)
    (h1 : e.state.scroll_top ≤ n - 1)
    (h2 : n - 1 ≤ e.state.scroll_bottom) :
    (TerminalEmulator.process_csi "d" [n] e).map
      (fun r => (r.state.cursor_x, r.state.cursor_y)) = some (0, n - 1) := by
  have hd : TerminalEmulator.process_csi "d" [n] e =
      some (TerminalEmulator.cmd_vpa (n - 1) e) := rfl
  rw [hd, Option.map_some']
  obtain ⟨hx, hy, -⟩ :=
    TerminalState.check_bounds_in_range
      { e.state with cursor_x := 0, cursor_y := n - 1 }
      (le_refl 0) hw h1 h2
  refine congrArg some ?_
  have hx2 : (TerminalEmulator.cmd_vpa (n - 1) e).state.cursor_x = 0 := hx
  have hy2 : (TerminalEmulator.cmd_vpa (n - 1) e).state.cursor_y = n - 1 := hy
  rw [hx2, hy2]

/-- C6 witness: the amended VPA theorem at `n = 2` on the fresh 10×3
emulator. -/
theorem vpa_row_and_column_witness :
    0 < init10x3.state.width ∧
    init10x3.state.scroll_top ≤ 2 - 1 ∧
    2 - 1 ≤ init10x3.state.scroll_bottom ∧
    (TerminalEmulator.process_csi "d" [2] init10x3).map
      (fun r => (r.state.cursor_x, r.state.cursor_y)) = some (0, 2 - 1) :=
  ⟨by decide, by decide, by decide,
    vpa_row_and_column init10x3 2 (by decide) (by decide) (by decide)⟩

/-! ## Encoder helper lemmas -/

/-- A fold whose step never changes the accumulator is the identity. -/
theorem foldl_id {α β : Type} (l : List β) (g : α → β → α)
    (h : ∀ a b, b ∈ l → g a b = a) : ∀ a, l.foldl g a = a := by
  induction l with
  | nil => intro a; rfl
  | cons x t ih =>
    intro a
    rw [List.foldl_cons, h a x (by simp)]
    exact ih (fun a b hb => h a b (by simp [hb])) a

/-- The `compute_diff` scan over two identical canvases finds no
changes. -/
theorem compute_diff_self (enc : GifEncoder) (canvas : List Nat) :
    enc.compute_diff canvas canvas = (0, 0, 1, 1, [canvas.getD 0 0]) := by
  unfold GifEncoder.compute_diff
  simp only []
  rw [foldl_id _ _ (fun acc y _ => foldl_id _ _ (fun acc2 x _ => by
    rw [if_neg (by simp)]) acc)]
  rw [if_pos (by simp)]

/-- The `index_map` loop never touches keys that are not in the list. -/
theorem indexMapFold_notMem (t : List Nat) (p : Nat) (hp : p ∉ t) :
    ∀ (m : Nat) (acc : Nat → Nat),
    ((List.enumFrom m t).foldl
      (fun f q => fun n => if n = q.2 then q.1 % 256 else f n) acc) p = acc p := by
  induction t with
  | nil => intro m acc; rfl
  | cons y t2 ih =>
    intro m acc
    rw [List.enumFrom_cons, List.foldl_cons]
    rw [ih (fun h => hp (by simp [h]))]
    simp only []
    rw [if_neg (fun h => hp (by simp [h]))]

/-- The `index_map` loop sends every color of a duplicate-free list to
its index (truncated to a byte). -/
theorem indexMapFold_eq (u : List Nat) (hnd : u.Nodup) (p : Nat) (hp : p ∈ u) :
    (u.enum.foldl (fun f q => fun n => if n = q.2 then q.1 % 256 else f n)
      (fun _ => 0)) p = u.indexOf p % 256 := by
  suffices h : ∀ (u : List Nat), u.Nodup → p ∈ u → ∀ (k : Nat) (acc : Nat → Nat),
      ((List.enumFrom k u).foldl
        (fun f q => fun n => if n = q.2 then q.1 % 256 else f n) acc) p =
        (k + u.indexOf p) % 256 by
    have h2 := h u hnd hp 0 (fun _ => 0)
    simpa [List.enum] using h2
  intro u
  induction u with
  | nil => intro _ hp2; exact absurd hp2 (by simp)
  | cons x t ih =>
    intro hnd2 hp2 k acc
    rw [List.enumFrom_cons, List.foldl_cons]
    by_cases hpx : p = x
    · subst hpx
      have hnotin : p ∉ t := (List.nodup_cons.mp hnd2).1
      rw [indexMapFold_notMem t p hnotin]
      simp [List.indexOf_cons_self]
    · have hpt : p ∈ t := by
        rcases List.mem_cons.mp hp2 with h | h
        · exact absurd h hpx
        · exact h
      rw [ih (List.nodup_cons.mp hnd2).2 hpt (k + 1)]
      rw [List.indexOf_cons_ne _ (fun h => hpx h.symm)]
      congr 1
      omega

/-- Reading entry `3*i + j` of the concatenated RGB triples picks
component `j` of the `i`-th color. -/
theorem flatMapTriple_getD (gp : List Nat) (u : List Nat) (i j : Nat)
    (hi : i < u.length) (hj : j < 3) :
    (u.flatMap (fun gi =>
        [gp.getD (3 * gi) 0, gp.getD (3 * gi + 1) 0, gp.getD (3 * gi + 2) 0])).getD
      (3 * i + j) 0 = gp.getD (3 * (u.get ⟨i, hi⟩) + j) 0 := by
  induction u generalizing i with
  | nil => exact absurd hi (by simp)
  | cons x t ih =>
    rw [List.flatMap_cons]
    match i with
    | 0 =>
      simp only [Nat.mul_zero, Nat.zero_add]
      match j, hj with
      | 0, _ => rfl
      | 1, _ => rfl
      | 2, _ => rfl
    | i + 1 =>
      have harith : 3 * (i + 1) + j = 3 * i + j + 1 + 1 + 1 := by ring
      rw [harith]
      show (_ :: _ :: _ :: t.flatMap _).getD (3 * i + j + 1 + 1 + 1) 0 = _
      rw [List.getD_cons_succ, List.getD_cons_succ, List.getD_cons_succ]
      exact ih (i := i) (Nat.lt_of_succ_lt_succ hi)

/-! ## C7 and C8 theorems -/

/-- C7 (confirmed): a canvas identical to the previously encoded one
produces the 1×1 stub frame at `(0, 0)`: the extracted frame data is
`[canvas[0]]`, the emitted frame has size 1×1 at offset `(0, 0)` with
the given delay, and its single pixel (local index 0) resolves through
the attached local palette to the global color of `canvas[0]`. -/
theorem add_frame_identical_stub (enc : GifEncoder) (canvas : List Nat)
    (delay : Nat) (hprev : enc.previous_frame = some canvas) :
    enc.compute_diff canvas canvas = (0, 0, 1, 1, [canvas.getD 0 0]) ∧
    (enc.add_frame canvas delay).1.left = 0 ∧
    (enc.add_frame canvas delay).1.top = 0 ∧
    (enc.add_frame canvas delay).1.width = 1 ∧
    (enc.add_frame canvas delay).1.height = 1 ∧
    (enc.add_frame canvas delay).1.delay = delay ∧
    (enc.add_frame canvas delay).1.pixels = [0] ∧
    (enc.add_frame canvas delay).1.palette = some
      [enc.global_palette.getD (3 * canvas.getD 0 0) 0,
       enc.global_palette.getD (3 * canvas.getD 0 0 + 1) 0,
       enc.global_palette.getD (3 * canvas.getD 0 0 + 2) 0] := by
  have hdiff := compute_diff_self enc canvas
  have hframe : enc.add_frame canvas delay =
      ({ width := 1, height := 1
         pixels := (enc.create_local_palette [canvas.getD 0 0]).2
         transparent := enc.transparent_index
         delay := delay, left := 0, top := 0
         palette := some (enc.create_local_palette [canvas.getD 0 0]).1
         dispose_keep := true },
       { enc with previous_frame := some canvas }) := by
    unfold GifEncoder.add_frame
    rw [hprev]
    simp only [hdiff]
    rfl
  have hpal : enc.create_local_palette [canvas.getD 0 0] =
      ([enc.global_palette.getD (3 * canvas.getD 0 0) 0,
        enc.global_palette.getD (3 * canvas.getD 0 0 + 1) 0,
        enc.global_palette.getD (3 * canvas.getD 0 0 + 2) 0], [0]) := by
    unfold GifEncoder.create_local_palette
    simp [List.enum]
  rw [hframe, hpal]
  exact ⟨hdiff, rfl, rfl, rfl, rfl, rfl, rfl, rfl⟩

/-- C7 witness: a 3×2 encoder whose previous frame equals the new
canvas. -/
theorem add_frame_identical_stub_witness :
    (⟨3, 2, some [1, 2, 3, 4, 5, 6], none, paletteDefault⟩ :
        GifEncoder).previous_frame = some [1, 2, 3, 4, 5, 6] ∧
    (⟨3, 2, some [1, 2, 3, 4, 5, 6], none, paletteDefault⟩ :
        GifEncoder).compute_diff [1, 2, 3, 4, 5, 6] [1, 2, 3, 4, 5, 6] =
      (0, 0, 1, 1, [[1, 2, 3, 4, 5, 6].getD 0 0]) :=
  ⟨rfl, (add_frame_identical_stub _ [1, 2, 3, 4, 5, 6] 12 rfl).1⟩

/-- Summing a constant 3 over a list. -/
theorem sum_map_three {α : Type} (u : List α) :
    (u.map (fun _ => (3 : Nat))).sum = 3 * u.length := by
  induction u with
  | nil => rfl
  | cons x t ih => simp [ih]; ring

/-- C8 (confirmed): the local color table consists of exactly the
set of global indices occurring in the frame data, sorted ascending
with contiguous local indices (the remap sends each pixel to the rank
of its color), and looking a remapped pixel up in the local palette
yields the same RGB bytes as looking the original index up in the
global palette. -/
theorem create_local_palette_correct (enc : GifEncoder) (fd : List Nat)
    (h256 : ∀ p ∈ fd, p < 256) :
    List.Sorted (· ≤ ·) (fd.toFinset.sort (· ≤ ·)) ∧
    (fd.toFinset.sort (· ≤ ·)).Nodup ∧
    (∀ p, p ∈ fd.toFinset.sort (· ≤ ·) ↔ p ∈ fd) ∧
    (enc.create_local_palette fd).1.length =
      3 * (fd.toFinset.sort (· ≤ ·)).length ∧
    (enc.create_local_palette fd).2 =
      fd.map (fun p => (fd.toFinset.sort (· ≤ ·)).indexOf p) ∧
    (∀ p ∈ fd, ∀ j, j < 3 →
      (enc.create_local_palette fd).1.getD
          (3 * (fd.toFinset.sort (· ≤ ·)).indexOf p + j) 0 =
        enc.global_palette.getD (3 * p + j) 0) := by
  set u := fd.toFinset.sort (· ≤ ·) with hu
  have hnd : u.Nodup := Finset.sort_nodup _ _
  have hmem : ∀ p, p ∈ u ↔ p ∈ fd := by
    intro p
    rw [hu, Finset.mem_sort, List.mem_toFinset]
  have hlen256 : u.length ≤ 256 := by
    have hcard : u.length = fd.toFinset.card := Finset.length_sort _
    have hsub : fd.toFinset ⊆ Finset.range 256 :=
      fun p hp => Finset.mem_range.mpr (h256 p (List.mem_toFinset.mp hp))
    have hle := Finset.card_le_card hsub
    rw [Finset.card_range] at hle
    omega
  refine ⟨Finset.sort_sorted _ _, hnd, hmem, ?_, ?_, ?_⟩
  · show (u.flatMap _).length = 3 * u.length
    have h3 : ∀ gi : Nat, ([enc.global_palette.getD (3 * gi) 0,
        enc.global_palette.getD (3 * gi + 1) 0,
        enc.global_palette.getD (3 * gi + 2) 0]).length = 3 := fun _ => rfl
    rw [List.length_flatMap]
    simp only [Function.comp_def, h3]
    rw [sum_map_three]
  · show fd.map _ = fd.map _
    refine List.map_congr_left (fun p hp => ?_)
    have hpu : p ∈ u := (hmem p).mpr hp
    rw [indexMapFold_eq u hnd p hpu]
    have hidx : u.indexOf p < u.length := List.indexOf_lt_length.mpr hpu
    exact Nat.mod_eq_of_lt (by omega)
  · intro p hp j hj
    have hpu : p ∈ u := (hmem p).mpr hp
    have hidx : u.indexOf p < u.length := List.indexOf_lt_length.mpr hpu
    show (u.flatMap _).getD _ 0 = _
    rw [flatMapTriple_getD enc.global_palette u (u.indexOf p) j hidx hj]
    rw [List.indexOf_get hidx]

/-- C8 witness: the local palette of the frame data `[7, 3, 7, 1]`
against the default global palette. -/
theorem create_local_palette_correct_witness :
    (∀ p ∈ [7, 3, 7, 1], p < 256) ∧
    ((⟨3, 2, none, none, paletteDefault⟩ :
        GifEncoder).create_local_palette [7, 3, 7, 1]).2 =
      [7, 3, 7, 1].map
        (fun p => ([7, 3, 7, 1].toFinset.sort (· ≤ ·)).indexOf p) :=
  ⟨by decide,
    (create_local_palette_correct ⟨3, 2, none, none, paletteDefault⟩
      [7, 3, 7, 1] (by decide)).2.2.2.2.1⟩

/-! ## Emulator invariant: defaults in byte range, all flags empty -/

/-- Defaults of a state are legal byte values (what the `u8` fields of
the Rust constructor guarantee). -/
def wfS (s : TerminalState) : Prop :=
  s.default_foreground ≤ 255 ∧ s.default_background ≤ 255

/-- Every cell of the grid carries empty attribute flags. -/
def flagsGrid (g : Grid) : Prop := ∀ x y, (g.cells x y).flags = 0

/-- The reachable-state invariant: byte-ranged defaults, empty flag
state, empty flags on every cell of both screens, and the 768-byte
palette. -/
def EmuInv (e : TerminalEmulator) : Prop :=
  wfS e.state ∧ wfS e.alt_state ∧
  e.state.flags = 0 ∧ e.alt_state.flags = 0 ∧
  flagsGrid e.grid ∧ flagsGrid e.alt_grid ∧
  e.palette.length ≤ 768

/-- An optional emulator that is `some` and satisfies the invariant. -/
def OkInv (o : Option TerminalEmulator) : Prop :=
  ∃ r, o = some r ∧ EmuInv r

/-- Generic fold invariant. -/
theorem foldl_inv {α β : Type} (P : α → Prop) (l : List β) (g : α → β → α)
    (h : ∀ a b, b ∈ l → P a → P (g a b)) : ∀ a, P a → P (l.foldl g a) := by
  induction l with
  | nil => intro a ha; exact ha
  | cons x t ih =>
    intro a ha
    rw [List.foldl_cons]
    exact ih (fun a b hb => h a b (by simp [hb])) _ (h a x (by simp) ha)

/-- Generic `Option` fold invariant. -/
theorem foldlM_okInv {β : Type} (P : TerminalEmulator → Prop) (l : List β)
    (g : TerminalEmulator → β → Option TerminalEmulator)
    (h : ∀ e b, b ∈ l → P e → ∃ r, g e b = some r ∧ P r) :
    ∀ e, P e → ∃ r, l.foldlM g e = some r ∧ P r := by
  induction l with
  | nil => intro e he; exact ⟨e, rfl, he⟩
  | cons x t ih =>
    intro e he
    obtain ⟨r1, hr1, hp1⟩ := h e x (by simp) he
    obtain ⟨r2, hr2, hp2⟩ := ih (fun e b hb hp => h e b (by simp [hb]) hp) r1 hp1
    exact ⟨r2, by rw [List.foldlM_cons, hr1]; exact hr2, hp2⟩

/-- All-flags-empty is preserved by the row-clearing inner loop. -/
theorem clearRowLoop_flags (w fg bg y : Nat) (cells : Nat → Nat → Cell)
    (h : ∀ x2 y2, (cells x2 y2).flags = 0) :
    ∀ x2 y2, ((Grid.clearRowLoop w fg bg y cells) x2 y2).flags = 0 := by
  intro x2 y2
  rw [Grid.clearRowLoop_cells]
  split
  · rfl
  · exact h x2 y2

/-- All-flags-empty is preserved by the shift-up inner loop. -/
theorem shiftRowUpLoop_flags (w h bottom lines y : Nat)
    (cells : Nat → Nat → Cell) (hc : ∀ x2 y2, (cells x2 y2).flags = 0) :
    ∀ x2 y2, ((Grid.shiftRowUpLoop w h bottom lines y cells) x2 y2).flags = 0 := by
  refine foldl_inv (fun f => ∀ x2 y2, (f x2 y2).flags = 0) _ _ ?_ cells hc
  intro f x _ hf x2 y2
  split
  · simp only []
    split
    · exact hf _ _
    · exact hf _ _
  · exact hf _ _

/-- All-flags-empty is preserved by the shift-down inner loop. -/
theorem shiftRowDownLoop_flags (w top lines y : Nat)
    (cells : Nat → Nat → Cell) (hc : ∀ x2 y2, (cells x2 y2).flags = 0) :
    ∀ x2 y2, ((Grid.shiftRowDownLoop w top lines y cells) x2 y2).flags = 0 := by
  refine foldl_inv (fun f => ∀ x2 y2, (f x2 y2).flags = 0) _ _ ?_ cells hc
  intro f x _ hf x2 y2
  split
  · simp only []
    split
    · exact hf _ _
    · exact hf _ _
  · exact hf _ _

/-- `scroll_region_up` preserves all-flags-empty. -/
theorem scroll_region_up_flags (g : Grid) (top bottom lines fg bg : Nat)
    (h : flagsGrid g) : flagsGrid (g.scroll_region_up top bottom lines fg bg) := by
  have hcl : ∀ (l : List Nat) (cells : Nat → Nat → Cell),
      (∀ x2 y2, (cells x2 y2).flags = 0) → ∀ x2 y2,
      ((l.foldl (fun f y => Grid.clearRowLoop g.width fg bg y f) cells) x2 y2).flags
        = 0 :=
    fun l cells hc => foldl_inv (fun f => ∀ x2 y2, (f x2 y2).flags = 0) l _
      (fun f y2 _ hf => clearRowLoop_flags _ _ _ _ _ hf) cells hc
  have hsh : ∀ (l : List Nat) (cells : Nat → Nat → Cell),
      (∀ x2 y2, (cells x2 y2).flags = 0) → ∀ x2 y2,
      ((l.foldl (fun f y => Grid.shiftRowUpLoop g.width g.height bottom lines y f)
        cells) x2 y2).flags = 0 :=
    fun l cells hc => foldl_inv (fun f => ∀ x2 y2, (f x2 y2).flags = 0) l _
      (fun f y2 _ hf => shiftRowUpLoop_flags _ _ _ _ _ _ hf) cells hc
  intro x y
  unfold Grid.scroll_region_up
  simp only []
  split
  · exact hcl _ _ h x y
  · exact hcl _ _ (hsh _ _ h) x y

/-- `scroll_region_down` preserves all-flags-empty. -/
theorem scroll_region_down_flags (g : Grid) (top bottom lines fg bg : Nat)
    (h : flagsGrid g) : flagsGrid (g.scroll_region_down top bottom lines fg bg) := by
  have hcl : ∀ (l : List Nat) (cells : Nat → Nat → Cell),
      (∀ x2 y2, (cells x2 y2).flags = 0) → ∀ x2 y2,
      ((l.foldl (fun f y => Grid.clearRowLoop g.width fg bg y f) cells) x2 y2).flags
        = 0 :=
    fun l cells hc => foldl_inv (fun f => ∀ x2 y2, (f x2 y2).flags = 0) l _
      (fun f y2 _ hf => clearRowLoop_flags _ _ _ _ _ hf) cells hc
  have hcl2 : ∀ (l : List Nat) (cells : Nat → Nat → Cell),
      (∀ x2 y2, (cells x2 y2).flags = 0) → ∀ x2 y2,
      ((l.foldl (fun f i => Grid.clearRowLoop g.width fg bg (top + i) f)
        cells) x2 y2).flags = 0 :=
    fun l cells hc => foldl_inv (fun f => ∀ x2 y2, (f x2 y2).flags = 0) l _
      (fun f i _ hf => clearRowLoop_flags _ _ _ _ _ hf) cells hc
  have hsh : ∀ (l : List Nat) (cells : Nat → Nat → Cell),
      (∀ x2 y2, (cells x2 y2).flags = 0) → ∀ x2 y2,
      ((l.foldl (fun f y => Grid.shiftRowDownLoop g.width top lines y f)
        cells) x2 y2).flags = 0 :=
    fun l cells hc => foldl_inv (fun f => ∀ x2 y2, (f x2 y2).flags = 0) l _
      (fun f y2 _ hf => shiftRowDownLoop_flags _ _ _ _ _ hf) cells hc
  intro x y
  unfold Grid.scroll_region_down
  simp only []
  split
  · exact hcl _ _ h x y
  · exact hcl2 _ _ (hsh _ _ h) x y

/-- `write_cell` with an empty-flag cell preserves all-flags-empty. -/
theorem write_cell_flags (g : Grid) (x y : Nat) (c : Cell) (hc : c.flags = 0)
    (h : flagsGrid g) : flagsGrid (g.write_cell x y c) := by
  unfold Grid.write_cell flagsGrid
  split
  · intro x2 y2
    show (if x2 = x ∧ y2 = y then c else g.cells x2 y2).flags = 0
    split
    · exact hc
    · exact h x2 y2
  · exact h

/-- `Grid.clear` preserves all-flags-empty. -/
theorem clear_flags (g : Grid) (fg bg : Nat) : flagsGrid (g.clear fg bg) :=
  fun _ _ => rfl

/-- `t` has the same defaults and flag state as `s` (the fields no
state method ever writes). -/
def keeps (s t : TerminalState) : Prop :=
  t.default_foreground = s.default_foreground ∧
  t.default_background = s.default_background ∧
  t.flags = s.flags

theorem keeps_refl (s : TerminalState) : keeps s s := ⟨rfl, rfl, rfl⟩

theorem keeps_trans {s t u : TerminalState} (h1 : keeps s t) (h2 : keeps t u) :
    keeps s u :=
  ⟨h2.1.trans h1.1, h2.2.1.trans h1.2.1, h2.2.2.trans h1.2.2⟩

theorem keeps_check_bounds (s : TerminalState) : keeps s s.check_bounds :=
  ⟨TerminalState.check_bounds_default_foreground s,
    TerminalState.check_bounds_default_background s,
    TerminalState.check_bounds_flags s⟩

theorem keeps_to_check_bounds (s t : TerminalState) (h : keeps s t) :
    keeps s t.check_bounds :=
  keeps_trans h (keeps_check_bounds t)

theorem keeps_cursor_up (s : TerminalState) (d : Int) : keeps s (s.cursor_up d) :=
  keeps_to_check_bounds s { s with cursor_y := s.cursor_y - d } ⟨rfl, rfl, rfl⟩

theorem keeps_cursor_down (s : TerminalState) (d : Int) : keeps s (s.cursor_down d) :=
  keeps_to_check_bounds s { s with cursor_y := s.cursor_y + d } ⟨rfl, rfl, rfl⟩

theorem keeps_cursor_left (s : TerminalState) (d : Int) : keeps s (s.cursor_left d) :=
  keeps_to_check_bounds s { s with cursor_x := s.cursor_x - d } ⟨rfl, rfl, rfl⟩

theorem keeps_cursor_absolute_x (s : TerminalState) (p : Int) :
    keeps s (s.cursor_absolute_x p) :=
  keeps_to_check_bounds s { s with cursor_x := p } ⟨rfl, rfl, rfl⟩

theorem keeps_cursor_absolute_y (s : TerminalState) (p : Int) :
    keeps s (s.cursor_absolute_y p) :=
  keeps_to_check_bounds s { s with cursor_y := p } ⟨rfl, rfl, rfl⟩

theorem keeps_cursor_absolute (s : TerminalState) (px py : Int) :
    keeps s (s.cursor_absolute px py) :=
  keeps_to_check_bounds s { s with cursor_x := px, cursor_y := py } ⟨rfl, rfl, rfl⟩

theorem keeps_wrapLoop : ∀ (fuel : Nat) (s : TerminalState),
    keeps s (TerminalState.wrapLoop fuel s) := by
  intro fuel
  induction fuel with
  | zero => intro s; exact keeps_refl s
  | succ n ih =>
    intro s
    unfold TerminalState.wrapLoop
    split
    · have hA : keeps s { s with cursor_x := s.cursor_x - s.width } := ⟨rfl, rfl, rfl⟩
      have hB := keeps_cursor_down { s with cursor_x := s.cursor_x - s.width } 1
      exact keeps_trans (keeps_trans hA hB) (ih _)
    · exact keeps_refl s

theorem keeps_cursor_right (s : TerminalState) (d : Int) :
    keeps s (s.cursor_right d) := by
  unfold TerminalState.cursor_right
  split
  · exact ⟨rfl, rfl, rfl⟩
  · simp only []
    have hA : keeps s { s with cursor_x := s.cursor_x + d } := ⟨rfl, rfl, rfl⟩
    split
    · exact keeps_to_check_bounds s _ (keeps_trans hA (keeps_wrapLoop _ _))
    · exact keeps_to_check_bounds s _ hA

theorem wfS_of_keeps {s t : TerminalState} (hk : keeps s t) (h : wfS s) : wfS t :=
  ⟨hk.1 ▸ h.1, hk.2.1 ▸ h.2⟩

/-- `TerminalState::set_foreground` succeeds exactly on byte-ranged
colors. -/
theorem set_foreground_le (s : TerminalState) (c : Int) (h : c ≤ 255) :
    s.set_foreground c = some { s with foreground := c } := by
  unfold TerminalState.set_foreground
  rw [if_neg (by omega)]

theorem set_background_le (s : TerminalState) (c : Int) (h : c ≤ 255) :
    s.set_background c = some { s with background := c } := by
  unfold TerminalState.set_background
  rw [if_neg (by omega)]

/-- Replacing the state with a `keeps`-related one preserves the
invariant. -/
theorem EmuInv.stateUpd {e : TerminalEmulator} (hinv : EmuInv e)
    {t : TerminalState} (hk : keeps e.state t) :
    EmuInv { e with state := t } :=
  ⟨wfS_of_keeps hk hinv.1, hinv.2.1, hk.2.2.trans hinv.2.2.1, hinv.2.2.2.1,
    hinv.2.2.2.2.1, hinv.2.2.2.2.2.1, hinv.2.2.2.2.2.2⟩

/-- Replacing the grid with an all-flags-empty one preserves the
invariant. -/
theorem EmuInv.gridUpd {e : TerminalEmulator} (hinv : EmuInv e)
    {g : Grid} (hg : flagsGrid g) : EmuInv { e with grid := g } :=
  ⟨hinv.1, hinv.2.1, hinv.2.2.1, hinv.2.2.2.1, hg, hinv.2.2.2.2.2.1,
    hinv.2.2.2.2.2.2⟩

/-- Replacing both grid and state preserves the invariant. -/
theorem EmuInv.bothUpd {e : TerminalEmulator} (hinv : EmuInv e)
    {g : Grid} (hg : flagsGrid g) {t : TerminalState} (hk : keeps e.state t) :
    EmuInv { e with grid := g, state := t } :=
  ⟨wfS_of_keeps hk hinv.1, hinv.2.1, hk.2.2.trans hinv.2.2.1, hinv.2.2.2.1,
    hg, hinv.2.2.2.2.2.1, hinv.2.2.2.2.2.2⟩

theorem inv_write (co : Nat) (e : TerminalEmulator) (hinv : EmuInv e) :
    EmuInv (TerminalEmulator.write co e) := by
  unfold TerminalEmulator.write
  simp only []
  exact EmuInv.gridUpd hinv
    (write_cell_flags _ _ _ _ hinv.2.2.1 hinv.2.2.2.2.1)

theorem inv_scroll_buffer (e : TerminalEmulator) (hinv : EmuInv e) :
    EmuInv (TerminalEmulator.scroll_buffer e) := by
  unfold TerminalEmulator.scroll_buffer
  simp only []
  split
  · exact EmuInv.bothUpd hinv
      (scroll_region_up_flags _ _ _ _ _ _ hinv.2.2.2.2.1) ⟨rfl, rfl, rfl⟩
  · exact EmuInv.bothUpd hinv
      (scroll_region_down_flags _ _ _ _ _ _ hinv.2.2.2.2.1) ⟨rfl, rfl, rfl⟩

theorem inv_renderChar (c : Char) (e : TerminalEmulator) (hinv : EmuInv e) :
    EmuInv (TerminalEmulator.renderChar c e) := by
  unfold TerminalEmulator.renderChar
  simp only []
  have h1 : EmuInv (if e.state.scroll ≠ 0 then TerminalEmulator.scroll_buffer e
      else e) := by
    split
    · exact inv_scroll_buffer e hinv
    · exact hinv
  generalize (if e.state.scroll ≠ 0 then TerminalEmulator.scroll_buffer e else e)
    = e1 at h1 ⊢
  split
  · split
    · exact EmuInv.stateUpd h1 (keeps_cursor_left _ _)
    · split
      · exact EmuInv.stateUpd h1 (keeps_cursor_right _ _)
      · split
        · split
          · exact EmuInv.stateUpd (EmuInv.stateUpd h1 (keeps_cursor_down _ _))
              (keeps_cursor_absolute_x _ _)
          · exact EmuInv.stateUpd h1 (keeps_cursor_down _ _)
        · split
          · exact EmuInv.stateUpd h1 (keeps_cursor_absolute_x _ _)
          · exact h1
  · have h2 : EmuInv (if e1.state.pending_wrap then
        { e1 with state := e1.state.cursor_right 1 } else e1) := by
      split
      · exact EmuInv.stateUpd h1 (keeps_cursor_right _ _)
      · exact h1
    generalize (if e1.state.pending_wrap then
        { e1 with state := e1.state.cursor_right 1 } else e1) = e2 at h2
    exact EmuInv.stateUpd (inv_write _ _ h2) (keeps_cursor_right _ _)

theorem inv_cmd_render_text (data : List Char) (e : TerminalEmulator)
    (hinv : EmuInv e) : EmuInv (TerminalEmulator.cmd_render_text data e) := by
  unfold TerminalEmulator.cmd_render_text
  simp only []
  refine EmuInv.stateUpd ?_ ⟨rfl, rfl, rfl⟩
  exact foldl_inv EmuInv data _ (fun a b _ ha => inv_renderChar b a ha) _
    (EmuInv.stateUpd hinv ⟨rfl, rfl, rfl⟩)

theorem okInv_set_foreground (c : Int) (e : TerminalEmulator) (hinv : EmuInv e) :
    ∃ r, TerminalEmulator.set_foreground c e = some r ∧ EmuInv r := by
  unfold TerminalEmulator.set_foreground
  split
  · rw [set_foreground_le _ _ hinv.1.1]
    exact ⟨_, rfl, EmuInv.stateUpd hinv ⟨rfl, rfl, rfl⟩⟩
  · rename_i hc
    rw [set_foreground_le _ _ (by omega)]
    exact ⟨_, rfl, EmuInv.stateUpd hinv ⟨rfl, rfl, rfl⟩⟩

theorem okInv_set_background (c : Int) (e : TerminalEmulator) (hinv : EmuInv e) :
    ∃ r, TerminalEmulator.set_background c e = some r ∧ EmuInv r := by
  unfold TerminalEmulator.set_background
  split
  · rw [set_background_le _ _ hinv.1.2]
    exact ⟨_, rfl, EmuInv.stateUpd hinv ⟨rfl, rfl, rfl⟩⟩
  · rename_i hc
    rw [set_background_le _ _ (by omega)]
    exact ⟨_, rfl, EmuInv.stateUpd hinv ⟨rfl, rfl, rfl⟩⟩

theorem some_bind_eq {α β : Type} (a : α) (f : α → Option β) :
    (some a >>= f : Option β) = f a := rfl

theorem okInv_bind {x : Option TerminalEmulator}
    {f : TerminalEmulator → Option TerminalEmulator}
    (hx : ∃ r, x = some r ∧ EmuInv r)
    (hf : ∀ a, EmuInv a → ∃ r, f a = some r ∧ EmuInv r) :
    ∃ r, (x >>= f) = some r ∧ EmuInv r := by
  obtain ⟨a, hxa, ha⟩ := hx
  rw [hxa, some_bind_eq]
  exact hf a ha

/-- The nearest-color search succeeds (its panic guard is unreachable)
whenever the color table has at most 768 bytes, and yields a byte. -/
theorem match_color_index_ok (pal : List Nat) (r g b : Int)
    (hlen : pal.length ≤ 768) :
    ∃ c, match_color_index pal r g b = some c ∧ c ≤ 255 := by
  have hacc : ((((List.range ((pal.length + 2) / 3)).map (fun k => 3 * k)).foldl
      (mciStep pal r g b) ((-1 : Int), (0 : Nat))).2) ≤ 255 := by
    refine foldl_inv (fun acc : Int × Nat => acc.2 ≤ 255) _ _ ?_ _ (by norm_num)
    intro acc i hi ha
    unfold mciStep
    simp only []
    split
    · obtain ⟨k, hk, rfl⟩ := List.mem_map.mp hi
      have hk2 := List.mem_range.mp hk
      show 3 * k / 3 ≤ 255
      omega
    · exact ha
  unfold match_color_index
  simp only []
  rw [if_neg (by omega)]
  exact ⟨_, rfl, hacc⟩

theorem okInv_cmd_set_mode (cmd : Int) (e : TerminalEmulator) (hinv : EmuInv e) :
    ∃ r, TerminalEmulator.cmd_set_mode cmd e = some r ∧ EmuInv r := by
  unfold TerminalEmulator.cmd_set_mode
  by_cases h0 : cmd = 0
  · rw [if_pos h0, set_foreground_le _ _ hinv.1.1, some_bind_eq]
    simp only []
    rw [set_background_le _ _ hinv.1.2, some_bind_eq]
    exact ⟨_, rfl, EmuInv.stateUpd hinv ⟨rfl, rfl, rfl⟩⟩
  rw [if_neg h0]
  by_cases h1 : cmd = 1
  · rw [if_pos h1]
    exact ⟨_, rfl, EmuInv.stateUpd hinv ⟨rfl, rfl, rfl⟩⟩
  rw [if_neg h1]
  by_cases h7 : cmd = 7
  · rw [if_pos h7]
    exact ⟨_, rfl, EmuInv.stateUpd hinv ⟨rfl, rfl, rfl⟩⟩
  rw [if_neg h7]
  by_cases h22 : cmd = 22
  · rw [if_pos h22]
    exact ⟨_, rfl, EmuInv.stateUpd hinv ⟨rfl, rfl, rfl⟩⟩
  rw [if_neg h22]
  by_cases h27 : cmd = 27
  · rw [if_pos h27]
    exact ⟨_, rfl, EmuInv.stateUpd hinv ⟨rfl, rfl, rfl⟩⟩
  rw [if_neg h27]
  by_cases h30 : 30 ≤ cmd ∧ cmd ≤ 37
  · rw [if_pos h30]
    by_cases hb : e.state.bold
    · rw [if_pos hb]
      exact okInv_set_foreground _ _ hinv
    · rw [if_neg hb]
      exact okInv_set_foreground _ _ hinv
  rw [if_neg h30]
  by_cases h39 : cmd = 39
  · rw [if_pos h39, set_foreground_le _ _ hinv.1.1]
    exact ⟨_, rfl, EmuInv.stateUpd hinv ⟨rfl, rfl, rfl⟩⟩
  rw [if_neg h39]
  by_cases h40 : 40 ≤ cmd ∧ cmd ≤ 47
  · rw [if_pos h40]
    by_cases hb : e.state.bold
    · rw [if_pos hb]
      exact okInv_set_background _ _ hinv
    · rw [if_neg hb]
      exact okInv_set_background _ _ hinv
  rw [if_neg h40]
  by_cases h49 : cmd = 49
  · rw [if_pos h49, set_background_le _ _ hinv.1.2]
    exact ⟨_, rfl, EmuInv.stateUpd hinv ⟨rfl, rfl, rfl⟩⟩
  rw [if_neg h49]
  by_cases h90 : 90 ≤ cmd ∧ cmd ≤ 97
  · rw [if_pos h90]
    exact okInv_set_foreground _ _ hinv
  rw [if_neg h90]
  by_cases h100 : 100 ≤ cmd ∧ cmd ≤ 107
  · rw [if_pos h100]
    exact okInv_set_background _ _ hinv
  rw [if_neg h100]
  exact ⟨e, rfl, hinv⟩

theorem okInv_cmd_reset_mode (cmd : Int) (e : TerminalEmulator) (hinv : EmuInv e) :
    ∃ r, TerminalEmulator.cmd_reset_mode cmd e = some r ∧ EmuInv r := by
  unfold TerminalEmulator.cmd_reset_mode
  by_cases h0 : cmd = 0
  · rw [if_pos h0, set_foreground_le _ _ hinv.1.1, some_bind_eq]
    simp only []
    rw [set_background_le _ _ hinv.1.2, some_bind_eq]
    exact ⟨_, rfl, EmuInv.stateUpd hinv ⟨rfl, rfl, rfl⟩⟩
  rw [if_neg h0]
  by_cases h1 : cmd = 1
  · rw [if_pos h1]
    exact ⟨_, rfl, EmuInv.stateUpd hinv ⟨rfl, rfl, rfl⟩⟩
  rw [if_neg h1]
  by_cases h7 : cmd = 7
  · rw [if_pos h7]
    exact ⟨_, rfl, EmuInv.stateUpd hinv ⟨rfl, rfl, rfl⟩⟩
  rw [if_neg h7]
  exact ⟨e, rfl, hinv⟩

theorem okInv_cmd_process_colors (ps : List Int) (e : TerminalEmulator)
    (hinv : EmuInv e) :
    ∃ r, TerminalEmulator.cmd_process_colors ps e = some r ∧ EmuInv r := by
  unfold TerminalEmulator.cmd_process_colors
  split
  · exact ⟨e, rfl, hinv⟩
  · split
    · -- SGR 38 prefix
      simp only []
      split
      · split
        · refine okInv_bind (okInv_set_foreground _ _ hinv) ?_
          intro a ha
          split
          · exact okInv_set_foreground _ _ ha
          · exact ⟨a, rfl, ha⟩
        · rename_i heq
          obtain ⟨c, hc, -⟩ := match_color_index_ok e.palette (ps.getD 2 0)
            (ps.getD 3 0) (ps.getD 4 0) hinv.2.2.2.2.2.2
          rw [heq] at hc
          exact absurd hc (by simp)
      · refine okInv_bind ⟨e, rfl, hinv⟩ ?_
        intro a ha
        split
        · exact okInv_set_foreground _ _ ha
        · exact ⟨a, rfl, ha⟩
    · split
      · -- SGR 48 prefix
        simp only []
        split
        · split
          · refine okInv_bind (okInv_set_background _ _ hinv) ?_
            intro a ha
            split
            · exact okInv_set_background _ _ ha
            · exact ⟨a, rfl, ha⟩
          · rename_i heq
            obtain ⟨c, hc, -⟩ := match_color_index_ok e.palette (ps.getD 2 0)
              (ps.getD 3 0) (ps.getD 4 0) hinv.2.2.2.2.2.2
            rw [heq] at hc
            exact absurd hc (by simp)
        · refine okInv_bind ⟨e, rfl, hinv⟩ ?_
          intro a ha
          split
          · exact okInv_set_background _ _ ha
          · exact ⟨a, rfl, ha⟩
      · exact foldlM_okInv EmuInv ps _
          (fun a b _ ha => okInv_cmd_set_mode b a ha) e hinv


theorem get_cell_flags {g : Grid} (hg : flagsGrid g) {x y : Nat} {c : Cell}
    (h : g.get_cell x y = some c) : c.flags = 0 := by
  unfold Grid.get_cell at h
  split at h
  · injection h with h2
    rw [← h2]
    exact hg x y
  · exact absurd h (by simp)

theorem inv_cmd_decstbm (t b : Int) (e : TerminalEmulator) (hinv : EmuInv e) :
    EmuInv (TerminalEmulator.cmd_decstbm t b e) :=
  EmuInv.stateUpd hinv ⟨rfl, rfl, rfl⟩

theorem inv_cmd_cuu (d : Int) (e : TerminalEmulator) (hinv : EmuInv e) :
    EmuInv (TerminalEmulator.cmd_cuu d e) :=
  EmuInv.stateUpd hinv (keeps_cursor_up _ _)

theorem inv_cmd_cud (d : Int) (e : TerminalEmulator) (hinv : EmuInv e) :
    EmuInv (TerminalEmulator.cmd_cud d e) :=
  EmuInv.stateUpd hinv (keeps_cursor_down _ _)

theorem inv_cmd_cub (d : Int) (e : TerminalEmulator) (hinv : EmuInv e) :
    EmuInv (TerminalEmulator.cmd_cub d e) :=
  EmuInv.stateUpd hinv (keeps_cursor_left _ _)

theorem inv_cmd_cuf (d : Int) (e : TerminalEmulator) (hinv : EmuInv e) :
    EmuInv (TerminalEmulator.cmd_cuf d e) :=
  EmuInv.stateUpd hinv (keeps_cursor_right _ _)

theorem inv_cmd_cpl (d : Int) (e : TerminalEmulator) (hinv : EmuInv e) :
    EmuInv (TerminalEmulator.cmd_cpl d e) :=
  EmuInv.stateUpd (EmuInv.stateUpd hinv (keeps_cursor_absolute_x _ _))
    (keeps_cursor_up _ _)

theorem inv_cmd_cnl (d : Int) (e : TerminalEmulator) (hinv : EmuInv e) :
    EmuInv (TerminalEmulator.cmd_cnl d e) :=
  EmuInv.stateUpd (EmuInv.stateUpd hinv (keeps_cursor_absolute_x _ _))
    (keeps_cursor_up _ _)

theorem inv_cmd_cha (x : Int) (e : TerminalEmulator) (hinv : EmuInv e) :
    EmuInv (TerminalEmulator.cmd_cha x e) :=
  EmuInv.stateUpd hinv (keeps_cursor_absolute_x _ _)

theorem inv_cmd_cup (x y : Int) (e : TerminalEmulator) (hinv : EmuInv e) :
    EmuInv (TerminalEmulator.cmd_cup x y e) :=
  EmuInv.stateUpd hinv (keeps_cursor_absolute _ _ _)

theorem inv_cmd_hvp (x y : Int) (e : TerminalEmulator) (hinv : EmuInv e) :
    EmuInv (TerminalEmulator.cmd_hvp x y e) :=
  EmuInv.stateUpd hinv (keeps_cursor_absolute _ _ _)

theorem inv_cmd_hpa (x : Int) (e : TerminalEmulator) (hinv : EmuInv e) :
    EmuInv (TerminalEmulator.cmd_hpa x e) :=
  EmuInv.stateUpd hinv (keeps_cursor_absolute_x _ _)

theorem inv_cmd_scp (e : TerminalEmulator) (hinv : EmuInv e) :
    EmuInv (TerminalEmulator.cmd_scp e) :=
  EmuInv.stateUpd hinv ⟨rfl, rfl, rfl⟩

theorem inv_cmd_rcp (e : TerminalEmulator) (hinv : EmuInv e) :
    EmuInv (TerminalEmulator.cmd_rcp e) :=
  EmuInv.stateUpd hinv ⟨rfl, rfl, rfl⟩

theorem inv_cmd_vpa (p : Int) (e : TerminalEmulator) (hinv : EmuInv e) :
    EmuInv (TerminalEmulator.cmd_vpa p e) :=
  EmuInv.stateUpd hinv (keeps_cursor_absolute _ _ _)

theorem inv_alternate_screen_on (e : TerminalEmulator) (hinv : EmuInv e) :
    EmuInv (TerminalEmulator.alternate_screen_on e) := by
  unfold TerminalEmulator.alternate_screen_on
  split
  · exact ⟨hinv.2.1, hinv.1, hinv.2.2.2.1, hinv.2.2.1, hinv.2.2.2.2.2.1,
      hinv.2.2.2.2.1, hinv.2.2.2.2.2.2⟩
  · exact hinv

theorem inv_alternate_screen_off (e : TerminalEmulator) (hinv : EmuInv e) :
    EmuInv (TerminalEmulator.alternate_screen_off e) := by
  unfold TerminalEmulator.alternate_screen_off
  split
  · exact ⟨hinv.2.1, hinv.1, hinv.2.2.2.1, hinv.2.2.1, hinv.2.2.2.2.2.1,
      hinv.2.2.2.2.1, hinv.2.2.2.2.2.2⟩
  · exact hinv

theorem inv_cmd_decset (code : Int) (e : TerminalEmulator) (hinv : EmuInv e) :
    EmuInv (TerminalEmulator.cmd_decset code e) := by
  unfold TerminalEmulator.cmd_decset
  split
  · exact EmuInv.stateUpd hinv ⟨rfl, rfl, rfl⟩
  · split
    · exact EmuInv.stateUpd hinv ⟨rfl, rfl, rfl⟩
    · split
      · exact inv_alternate_screen_on _ hinv
      · exact hinv

theorem inv_cmd_decrst (code : Int) (e : TerminalEmulator) (hinv : EmuInv e) :
    EmuInv (TerminalEmulator.cmd_decrst code e) := by
  unfold TerminalEmulator.cmd_decrst
  split
  · exact EmuInv.stateUpd hinv ⟨rfl, rfl, rfl⟩
  · split
    · exact EmuInv.stateUpd hinv ⟨rfl, rfl, rfl⟩
    · split
      · exact inv_alternate_screen_off _ hinv
      · exact hinv

theorem inv_cmd_ed (mode : Int) (e : TerminalEmulator) (hinv : EmuInv e) :
    EmuInv (TerminalEmulator.cmd_ed mode e) := by
  unfold TerminalEmulator.cmd_ed
  split
  · simp only []
    refine EmuInv.stateUpd ?_ (keeps_cursor_absolute _ _ _)
    refine foldl_inv EmuInv _ _ (fun a y hy ha => ?_) _
      (foldl_inv EmuInv _ _ (fun a x hx ha => inv_write 0 _
        (EmuInv.stateUpd ha (keeps_cursor_absolute_x _ _))) _ hinv)
    exact foldl_inv EmuInv _ _ (fun a2 x hx2 ha2 => inv_write 0 _
      (EmuInv.stateUpd ha2 (keeps_cursor_absolute _ _ _))) _ ha
  · split
    · simp only []
      refine EmuInv.stateUpd ?_ (keeps_cursor_absolute _ _ _)
      refine foldl_inv EmuInv _ _ (fun a y hy ha => ?_) _
        (foldl_inv EmuInv _ _ (fun a x hx ha => inv_write 0 _
          (EmuInv.stateUpd ha (keeps_cursor_absolute_x _ _))) _ hinv)
      exact foldl_inv EmuInv _ _ (fun a2 x hx2 ha2 => inv_write 0 _
        (EmuInv.stateUpd ha2 (keeps_cursor_absolute _ _ _))) _ ha
    · split
      · exact EmuInv.gridUpd hinv (clear_flags _ _ _)
      · exact hinv

theorem inv_cmd_el (mode : Int) (e : TerminalEmulator) (hinv : EmuInv e) :
    EmuInv (TerminalEmulator.cmd_el mode e) := by
  unfold TerminalEmulator.cmd_el
  simp only []
  refine EmuInv.stateUpd ?_ (keeps_cursor_absolute _ _ _)
  split
  · exact foldl_inv EmuInv _ _ (fun a x hx ha => inv_write 0 _
      (EmuInv.stateUpd ha (keeps_cursor_absolute_x _ _))) _ hinv
  · split
    · exact foldl_inv EmuInv _ _ (fun a x hx ha => inv_write 0 _
        (EmuInv.stateUpd ha (keeps_cursor_absolute_x _ _))) _ hinv
    · split
      · exact foldl_inv EmuInv _ _ (fun a x hx ha => inv_write 0 _
          (EmuInv.stateUpd ha (keeps_cursor_absolute_x _ _))) _ hinv
      · exact hinv

theorem inv_cmd_dch (d : Int) (e : TerminalEmulator) (hinv : EmuInv e) :
    EmuInv (TerminalEmulator.cmd_dch d e) := by
  unfold TerminalEmulator.cmd_dch
  simp only []
  refine foldl_inv EmuInv _ _ (fun a x2 hx2 ha => ?_) _
    (foldl_inv EmuInv _ _ (fun a x2 hx2 ha => ?_) _ hinv)
  · exact EmuInv.gridUpd ha
      (write_cell_flags _ _ _ _ rfl ha.2.2.2.2.1)
  · split
    · rename_i cell heq
      exact EmuInv.gridUpd ha
        (write_cell_flags _ _ _ _ (get_cell_flags ha.2.2.2.2.1 heq)
          ha.2.2.2.2.1)
    · exact ha

theorem inv_cmd_ech (d : Int) (e : TerminalEmulator) (hinv : EmuInv e) :
    EmuInv (TerminalEmulator.cmd_ech d e) := by
  unfold TerminalEmulator.cmd_ech
  simp only []
  refine EmuInv.stateUpd ?_ (keeps_cursor_absolute _ _ _)
  exact foldl_inv EmuInv _ _ (fun a x hx ha => inv_write 0 _
    (EmuInv.stateUpd ha (keeps_cursor_absolute_x _ _))) _ hinv

theorem inv_process_single (command : String) (e : TerminalEmulator)
    (hinv : EmuInv e) : EmuInv (TerminalEmulator.process_single command e) := by
  unfold TerminalEmulator.process_single
  simp only []
  have h1 : EmuInv (if command = "7" then
      { e with state := e.state.cursor_save_position } else e) := by
    split
    · exact EmuInv.stateUpd hinv ⟨rfl, rfl, rfl⟩
    · exact hinv
  generalize (if command = "7" then
      { e with state := e.state.cursor_save_position } else e) = e1 at h1 ⊢
  split
  · exact EmuInv.stateUpd h1 ⟨rfl, rfl, rfl⟩
  · exact h1

theorem okInv_process_csi (command : String) (params : List Int)
    (e : TerminalEmulator) (hinv : EmuInv e) :
    ∃ r, TerminalEmulator.process_csi command params e = some r ∧ EmuInv r := by
  unfold TerminalEmulator.process_csi
  simp only []
  by_cases hA : command = "A"
  · rw [if_pos hA]; exact ⟨_, rfl, inv_cmd_cuu _ _ hinv⟩
  rw [if_neg hA]
  by_cases hB : command = "B"
  · rw [if_pos hB]; exact ⟨_, rfl, inv_cmd_cud _ _ hinv⟩
  rw [if_neg hB]
  by_cases hC : command = "C"
  · rw [if_pos hC]; exact ⟨_, rfl, inv_cmd_cuf _ _ hinv⟩
  rw [if_neg hC]
  by_cases hD : command = "D"
  · rw [if_pos hD]; exact ⟨_, rfl, inv_cmd_cub _ _ hinv⟩
  rw [if_neg hD]
  by_cases hE : command = "E"
  · rw [if_pos hE]; exact ⟨_, rfl, inv_cmd_cnl _ _ hinv⟩
  rw [if_neg hE]
  by_cases hF : command = "F"
  · rw [if_pos hF]; exact ⟨_, rfl, inv_cmd_cpl _ _ hinv⟩
  rw [if_neg hF]
  by_cases hG : command = "G"
  · rw [if_pos hG]; exact ⟨_, rfl, inv_cmd_cha _ _ hinv⟩
  rw [if_neg hG]
  by_cases hH : command = "H"
  · rw [if_pos hH]; exact ⟨_, rfl, inv_cmd_cup _ _ _ hinv⟩
  rw [if_neg hH]
  by_cases hJ : command = "J"
  · rw [if_pos hJ]; exact ⟨_, rfl, inv_cmd_ed _ _ hinv⟩
  rw [if_neg hJ]
  by_cases hK : command = "K"
  · rw [if_pos hK]; exact ⟨_, rfl, inv_cmd_el _ _ hinv⟩
  rw [if_neg hK]
  by_cases hP : command = "P"
  · rw [if_pos hP]; exact ⟨_, rfl, inv_cmd_dch _ _ hinv⟩
  rw [if_neg hP]
  by_cases hX : command = "X"
  · rw [if_pos hX]; exact ⟨_, rfl, inv_cmd_ech _ _ hinv⟩
  rw [if_neg hX]
  by_cases hd : command = "d"
  · rw [if_pos hd]; exact ⟨_, rfl, inv_cmd_vpa _ _ hinv⟩
  rw [if_neg hd]
  by_cases hbq : command = String.mk [Char.ofNat 96]
  · rw [if_pos hbq]; exact ⟨_, rfl, inv_cmd_hpa _ _ hinv⟩
  rw [if_neg hbq]
  by_cases hf : command = "f"
  · rw [if_pos hf]; exact ⟨_, rfl, inv_cmd_hvp _ _ _ hinv⟩
  rw [if_neg hf]
  by_cases hl : command = "l"
  · rw [if_pos hl]; exact okInv_cmd_reset_mode _ _ hinv
  rw [if_neg hl]
  by_cases hm : command = "m"
  · rw [if_pos hm]; exact okInv_cmd_process_colors _ _ hinv
  rw [if_neg hm]
  by_cases hr2 : command = "r"
  · rw [if_pos hr2]; exact ⟨_, rfl, inv_cmd_decstbm _ _ _ hinv⟩
  rw [if_neg hr2]
  by_cases hs2 : command = "s"
  · rw [if_pos hs2]; exact ⟨_, rfl, inv_cmd_scp _ hinv⟩
  rw [if_neg hs2]
  by_cases hu : command = "u"
  · rw [if_pos hu]; exact ⟨_, rfl, inv_cmd_rcp _ hinv⟩
  rw [if_neg hu]
  by_cases htl : command = "~"
  · rw [if_pos htl]; exact ⟨e, rfl, hinv⟩
  rw [if_neg htl]
  by_cases hqh : command = "?h"
  · rw [if_pos hqh]; exact ⟨_, rfl, inv_cmd_decset _ _ hinv⟩
  rw [if_neg hqh]
  by_cases hql : command = "?l"
  · rw [if_pos hql]; exact ⟨_, rfl, inv_cmd_decrst _ _ hinv⟩
  rw [if_neg hql]
  exact ⟨e, rfl, hinv⟩

theorem okInv_process_command (cmd : Ansi.Command) (e : TerminalEmulator)
    (hinv : EmuInv e) :
    ∃ r, TerminalEmulator.process_command cmd e = some r ∧ EmuInv r := by
  obtain ⟨ty, cstr, cps⟩ := cmd
  cases ty
  all_goals first
    | exact ⟨_, rfl, inv_process_single _ _ hinv⟩
    | exact okInv_process_csi _ _ _ hinv
    | exact ⟨e, rfl, hinv⟩

theorem okInv_applyEvent (ev : Ansi.Event) (e : TerminalEmulator)
    (hinv : EmuInv e) :
    ∃ r, TerminalEmulator.applyEvent ev e = some r ∧ EmuInv r := by
  cases ev with
  | text chars => exact ⟨_, rfl, inv_cmd_render_text _ _ hinv⟩
  | command cmd => exact okInv_process_command _ _ hinv

theorem pure_bind_eq {α β : Type} (a : α) (f : α → Option β) :
    ((pure a : Option α) >>= f : Option β) = f a := rfl

/-- `feed_bytes` succeeds on every input from an invariant state, and
its result satisfies the invariant. -/
theorem okInv_feed (text : List Char) (e : TerminalEmulator) (hinv : EmuInv e) :
    ∃ r, TerminalEmulator.feed text e = some r ∧ EmuInv r := by
  unfold TerminalEmulator.feed
  simp only []
  obtain ⟨r1, hr1, h1⟩ := foldlM_okInv EmuInv
    (Ansi.parse (e.extra_text ++ text)).1
    (fun a ev => TerminalEmulator.applyEvent ev a)
    (fun a b hb ha => okInv_applyEvent b a ha) e hinv
  rw [hr1, some_bind_eq]
  split
  · exact ⟨_, rfl, h1⟩
  · split
    · exact ⟨_, rfl, inv_cmd_render_text _ _ h1⟩
    · exact ⟨_, rfl, h1⟩

set_option maxRecDepth 4000 in
theorem paletteDefault_length : paletteDefault.length = 768 := by rfl

/-- A freshly constructed emulator satisfies the invariant. -/
theorem inv_new (w h : Nat) (aw : Bool) (fg bg : Nat) :
    EmuInv (TerminalEmulator.new w h aw fg bg) := by
  unfold TerminalEmulator.new
  simp only []
  have hs : wfS (if ¬aw = true then (TerminalState.new w h fg bg).autowrap_off
      else TerminalState.new w h fg bg) := by
    split
    · exact ⟨by show ((fg % 256 : Nat) : Int) ≤ 255; omega,
        by show ((bg % 256 : Nat) : Int) ≤ 255; omega⟩
    · exact ⟨by show ((fg % 256 : Nat) : Int) ≤ 255; omega,
        by show ((bg % 256 : Nat) : Int) ≤ 255; omega⟩
  have hf : (if ¬aw = true then (TerminalState.new w h fg bg).autowrap_off
      else TerminalState.new w h fg bg).flags = 0 := by
    split
    · rfl
    · rfl
  exact ⟨hs, hs, hf, hf, fun x y => rfl, fun x y => rfl,
    le_of_eq paletteDefault_length⟩

theorem set_foreground_overflow (e : TerminalEmulator) (c : Int)
    (hinv : EmuInv e) (hc : 255 < c) :
    TerminalEmulator.set_foreground c e =
      some { e with state :=
        { e.state with foreground := e.state.default_foreground } } := by
  unfold TerminalEmulator.set_foreground
  rw [if_pos (show c ≥ 256 by omega), set_foreground_le _ _ hinv.1.1]
  rfl

theorem set_background_overflow (e : TerminalEmulator) (c : Int)
    (hinv : EmuInv e) (hc : 255 < c) :
    TerminalEmulator.set_background c e =
      some { e with state :=
        { e.state with background := e.state.default_background } } := by
  unfold TerminalEmulator.set_background
  rw [if_pos (show c ≥ 256 by omega), set_background_le _ _ hinv.1.2]
  rfl

/-- C9: an SGR 256-color escape whose color parameter exceeds 255 sets
the corresponding color to its default index (foreground for `38;5;N`,
background for `48;5;N`), and `feed_bytes` never fails on any input
from an invariant-satisfying state: the `panic!("Color over maximum
value")` branch of the state setters is unreachable. -/
theorem sgr_color_overflow_safe (e : TerminalEmulator) (N : Int)
    (hinv : EmuInv e) (hN : 255 < N) :
    TerminalEmulator.cmd_process_colors [38, 5, N] e =
      some { e with state :=
        { e.state with foreground := e.state.default_foreground } } ∧
    TerminalEmulator.cmd_process_colors [48, 5, N] e =
      some { e with state :=
        { e.state with background := e.state.default_background } } ∧
    ∀ text, (TerminalEmulator.feed text e).isSome := by
  refine ⟨?_, ?_, ?_⟩
  · have hstep : TerminalEmulator.cmd_process_colors [(38 : Int), 5, N] e =
        TerminalEmulator.set_foreground N e := rfl
    rw [hstep]
    exact set_foreground_overflow e N hinv hN
  · have hstep : TerminalEmulator.cmd_process_colors [(48 : Int), 5, N] e =
        TerminalEmulator.set_background N e := rfl
    rw [hstep]
    exact set_background_overflow e N hinv hN
  · intro text
    obtain ⟨r, hr, -⟩ := okInv_feed text e hinv
    rw [hr]
    rfl

/-- Witness: the overflow parameter 300 on a fresh 10×3 emulator. -/
theorem sgr_color_overflow_safe_witness :
    EmuInv (TerminalEmulator.new 10 3 true 7 0) ∧ ((255 : Int) < 300) ∧
    ∀ text,
      (TerminalEmulator.feed text (TerminalEmulator.new 10 3 true 7 0)).isSome :=
  ⟨inv_new 10 3 true 7 0, by decide,
    (sgr_color_overflow_safe (TerminalEmulator.new 10 3 true 7 0) 300
      (inv_new 10 3 true 7 0) (by decide)).2.2⟩

/-- C10: in every grid state reachable through `feed_bytes` from a fresh
emulator, every cell's `flags` field is empty and the state's `flags`
field is empty; bold is realized purely by adding 8 to the SGR 30–37 /
40–47 color index, and reverse video purely by swapping the foreground
and background colors at write time. -/
theorem cell_flags_always_empty (w h : Nat) (aw : Bool) (fg bg : Nat)
    (chunks : List (List Char)) (e2 : TerminalEmulator)
    (hfeed : TerminalEmulator.feedList chunks
      (TerminalEmulator.new w h aw fg bg) = some e2) :
    ((∀ x y, (e2.grid.cells x y).flags = 0) ∧
      (∀ x y, (e2.alt_grid.cells x y).flags = 0) ∧
      e2.state.flags = 0) ∧
    (∀ (a : TerminalEmulator) (n : Int), 30 ≤ n → n ≤ 37 →
      a.state.bold = true →
      a.state.default_foreground ≤ 255 →
      TerminalEmulator.cmd_set_mode n a =
        some { a with state := { a.state with foreground := n - 30 + 8 } }) ∧
    (∀ (a : TerminalEmulator) (co : Nat), a.state.reverse_video = true →
      TerminalEmulator.write co a =
        { a with
          grid :=
            a.grid.write_cell (usizeOfI32 a.state.cursor_x)
              (usizeOfI32 a.state.cursor_y)
              (Cell.new
                (if co ≤ 0xFFFF then
                  if co.isValidChar then Char.ofNat co else ' '
                else ' ')
                (u8OfI32 a.state.background) (u8OfI32 a.state.foreground)
                a.state.flags) }) := by
  refine ⟨?_, ?_, ?_⟩
  · obtain ⟨r, hr, hinvr⟩ := foldlM_okInv EmuInv chunks
      (fun a c => TerminalEmulator.feed c a)
      (fun a b hb ha => okInv_feed b a ha) _ (inv_new w h aw fg bg)
    unfold TerminalEmulator.feedList at hfeed
    rw [hr] at hfeed
    injection hfeed with h2
    rw [← h2]
    exact ⟨fun x y => hinvr.2.2.2.2.1 x y, fun x y => hinvr.2.2.2.2.2.1 x y,
      hinvr.2.2.1⟩
  · intro a n h30 h37 hb hdf
    unfold TerminalEmulator.cmd_set_mode
    rw [if_neg (show ¬(n = 0) by omega), if_neg (show ¬(n = 1) by omega),
      if_neg (show ¬(n = 7) by omega), if_neg (show ¬(n = 22) by omega),
      if_neg (show ¬(n = 27) by omega),
      if_pos (show 30 ≤ n ∧ n ≤ 37 from ⟨h30, h37⟩), if_pos hb]
    unfold TerminalEmulator.set_foreground
    rw [if_neg (show ¬(n - 30 + 8 ≥ 256) by omega),
      set_foreground_le _ _ (by omega)]
    rfl
  · intro a co hrv
    unfold TerminalEmulator.write
    simp only []
    rw [if_pos hrv]

/-- Witness: feeding a single character chunk to a fresh 10×3 emulator
yields a grid whose cell (0, 0) has empty flags. -/
theorem cell_flags_always_empty_witness :
    ((TerminalEmulator.feedList [['a']] (TerminalEmulator.new 10 3 true 7 0)).map
      (fun r => (r.grid.cells 0 0).flags)) = some 0 := by
  cases hfeed : TerminalEmulator.feedList [['a']]
      (TerminalEmulator.new 10 3 true 7 0) with
  | none =>
    have hsome : (TerminalEmulator.feedList [['a']]
        (TerminalEmulator.new 10 3 true 7 0)).isSome = true := by decide
    rw [hfeed] at hsome
    exact absurd hsome (by decide)
  | some r =>
    have h := cell_flags_always_empty 10 3 true 7 0 [['a']] r hfeed
    simp only [Option.map_some']
    rw [h.1.1 0 0]

end TtyVid
